import Mathlib

/-!
Shallow embedding of the LSB steganography codec of img-fu (`src/main.rs`)
together with proofs of its specification properties.

Machine integers are modelled as `Nat`; `u32` wrap-around is written
explicitly as `% 4294967296` where the source can overflow.  Rust panics
(out-of-bounds pixel access, division by zero, `unwrap` on invalid UTF-8)
are modelled with `Except`.  The file I/O and CLI layers of the source are
out of scope, exactly as the specification declares them external.
-/

namespace ImgFu

/-- Errors corresponding to the panics and early aborts of the source:
out-of-bounds pixel access, `u32` division by zero, `String::from_utf8`
failure, and the capacity refusal in `encode`. -/
inductive Err where
  | bounds
  | divByZero
  | encoding
  | capacity
deriving DecidableEq

/-- One RGBA pixel: four 8-bit channels.  Channel values of a real
`image::Rgba<u8>` are always `< 256`; that fact is carried separately as
`Image.channelsOk`. -/
structure Rgba where
  r : Nat
  g : Nat
  b : Nat
  a : Nat
deriving DecidableEq

/-- Model of `image::ImageBuffer<image::Rgba<u8>, Vec<u8>>`: a row-major grid of
pixels, pixel `(x, y)` stored at linear index `y * width + x`. -/
structure Image where
  width : Nat
  height : Nat
  pixels : List Rgba
deriving DecidableEq

/-- The pixel buffer holds exactly `width * height` pixels (always true of a
real `ImageBuffer`). -/
def Image.wf (img : Image) : Prop :=
  img.pixels.length = img.width * img.height

/-- Every channel value fits in a `u8` (always true of a real `ImageBuffer`). -/
def Image.channelsOk (img : Image) : Prop :=
  ∀ p ∈ img.pixels, p.r < 256 ∧ p.g < 256 ∧ p.b < 256 ∧ p.a < 256

/-- Reading `img[(x, y)]` through the `Index` impl of `ImageBuffer`: panics
when the coordinates are out of bounds, otherwise yields the pixel stored at
row-major index `y * width + x`. -/
def getPixel (img : Image) (x y : Nat) : Except Err Rgba :=
  if x < img.width ∧ y < img.height then
    match img.pixels.get? (y * img.width + x) with
    | some p => Except.ok p
    | none => Except.error Err.bounds
  else Except.error Err.bounds

/-- Model of `img.put_pixel(x, y, p)`: panics when the coordinates are out of bounds,
otherwise replaces the pixel at row-major index `y * width + x`. -/
def putPixel (img : Image) (x y : Nat) (p : Rgba) : Except Err Image :=
  if x < img.width ∧ y < img.height then
    Except.ok { img with pixels := img.pixels.set (y * img.width + x) p }
  else Except.error Err.bounds

/-- Model of `get_pixel_position` from the source.  `y` is the integer quotient (the
source casts `pixel_index / width` to `f64`, floors it and casts back, which
is the identity on the integer quotient), `x` the remainder.  The source's
bounds check uses strict `>` on both coordinates; the `x > width` disjunct
can never fire because `x` is a remainder.  The `u32` division by zero that
Rust would panic on for a zero-width image is made explicit. -/
def get_pixel_position (img : Image) (pixel_index : Nat) : Except Err (Nat × Nat) :=
  if img.width = 0 then Except.error Err.divByZero
  else if pixel_index % img.width > img.width ∨ pixel_index / img.width > img.height then
    Except.error Err.bounds
  else Except.ok (pixel_index % img.width, pixel_index / img.width)

/-- Model of `byte_with_x_last_bit`: set the least-significant bit to 1 via `| 1`,
otherwise clear it via `& !1` (`!1 = 254` on `u8`). -/
def byte_with_x_last_bit (byte : Nat) (x : Nat) : Nat :=
  if x = 1 then byte ||| 1 else byte &&& 254

/-- Model of `get_last_bit_of_byte`: `byte & 1`. -/
def get_last_bit_of_byte (byte : Nat) : Nat :=
  byte &&& 1

/-- Entry `bit_index` of the `bits` vector built at the top of
`write_byte_to_image`: `(byte >> bit_index) & 1`. -/
def bitOf (byte : Nat) (bit_index : Nat) : Nat :=
  (byte >>> bit_index) &&& 1

/-- The pixel written by the first loop iteration (`i = 0`) of
`write_byte_to_image`: bits 0-3 of the byte go into the LSBs of the four
channels. -/
def pixel_with_low_bits (byte : Nat) (p : Rgba) : Rgba :=
  { r := byte_with_x_last_bit p.r (bitOf byte 0)
    g := byte_with_x_last_bit p.g (bitOf byte 1)
    b := byte_with_x_last_bit p.b (bitOf byte 2)
    a := byte_with_x_last_bit p.a (bitOf byte 3) }

/-- The pixel written by the second loop iteration (`i = 4`) of
`write_byte_to_image`: bits 4-7 of the byte go into the LSBs of the four
channels. -/
def pixel_with_high_bits (byte : Nat) (p : Rgba) : Rgba :=
  { r := byte_with_x_last_bit p.r (bitOf byte 4)
    g := byte_with_x_last_bit p.g (bitOf byte 5)
    b := byte_with_x_last_bit p.b (bitOf byte 6)
    a := byte_with_x_last_bit p.a (bitOf byte 7) }

/-- Model of `write_byte_to_image`: writes one byte into the LSBs of the four channels
of two consecutive pixels, with the two iterations of the
`(0..8).step_by(4)` loop unrolled.  Each iteration looks up the position of
the current cursor, reads the pixel, writes the four bits, increments the
cursor and stores the pixel, exactly in the order of the source. -/
def write_byte_to_image (img : Image) (pixel_cursor : Nat) (byte : Nat) :
    Except Err (Image × Nat) := do
  let pos0 ← get_pixel_position img pixel_cursor
  let p0 ← getPixel img pos0.1 pos0.2
  let img1 ← putPixel img pos0.1 pos0.2 (pixel_with_low_bits byte p0)
  let pos1 ← get_pixel_position img1 (pixel_cursor + 1)
  let p1 ← getPixel img1 pos1.1 pos1.2
  let img2 ← putPixel img1 pos1.1 pos1.2 (pixel_with_high_bits byte p1)
  Except.ok (img2, pixel_cursor + 1 + 1)

/-- The byte value assembled by `read_byte_from_image` from two pixels: the
accumulator starts at 0 and each channel's LSB is ORed in, shifted to bit
positions 0-3 (first pixel) and 4-7 (second pixel). -/
def byte_from_pixels (p q : Rgba) : Nat :=
  ((((((((0 ||| (get_last_bit_of_byte p.r <<< 0)) |||
    (get_last_bit_of_byte p.g <<< 1)) |||
    (get_last_bit_of_byte p.b <<< 2)) |||
    (get_last_bit_of_byte p.a <<< 3)) |||
    (get_last_bit_of_byte q.r <<< 4)) |||
    (get_last_bit_of_byte q.g <<< 5)) |||
    (get_last_bit_of_byte q.b <<< 6)) |||
    (get_last_bit_of_byte q.a <<< 7))

/-- Model of `read_byte_from_image`: reads back one byte from the LSBs of two
consecutive pixels, with the two loop iterations unrolled. -/
def read_byte_from_image (img : Image) (pixel_cursor : Nat) :
    Except Err (Nat × Nat) := do
  let pos0 ← get_pixel_position img pixel_cursor
  let p0 ← getPixel img pos0.1 pos0.2
  let pos1 ← get_pixel_position img (pixel_cursor + 1)
  let p1 ← getPixel img pos1.1 pos1.2
  Except.ok (byte_from_pixels p0 p1, pixel_cursor + 1 + 1)

/-- Model of `write_byte_vector_to_image`: writes the bytes in order, threading the
cursor. -/
def write_byte_vector_to_image (img : Image) (pixel_cursor : Nat)
    (bytes : List Nat) : Except Err (Image × Nat) :=
  match bytes with
  | [] => Except.ok (img, pixel_cursor)
  | byte :: rest => do
    let (img1, c1) ← write_byte_to_image img pixel_cursor byte
    write_byte_vector_to_image img1 c1 rest

/-- Model of `read_bytes_from_image`: reads `length` bytes in order, threading the
cursor. -/
def read_bytes_from_image (img : Image) (pixel_cursor : Nat) (length : Nat) :
    Except Err (List Nat × Nat) :=
  match length with
  | 0 => Except.ok ([], pixel_cursor)
  | Nat.succ n => do
    let (byte, c1) ← read_byte_from_image img pixel_cursor
    let (rest, c2) ← read_bytes_from_image img c1 n
    Except.ok (byte :: rest, c2)

/-- Continuation-byte test of the UTF-8 validation: `0x80 ≤ b ≤ 0xBF`. -/
def isCont (b : Nat) : Bool :=
  128 ≤ b && b ≤ 191

/-- UTF-8 validity of a byte sequence.  Modelled from the standard library:
`String::from_utf8` accepts exactly the RFC 3629 well-formed sequences, per
the validation table of `core::str`: ASCII, two-byte leads `C2..DF`, three-byte leads `E0/E1..EC/ED/EE..EF`
with their restricted first continuations, and four-byte leads
`F0/F1..F3/F4` with theirs. -/
def utf8Valid : List Nat → Bool
  | [] => true
  | b :: rest =>
    if b ≤ 127 then utf8Valid rest
    else if 194 ≤ b && b ≤ 223 then
      match rest with
      | c1 :: rest1 => isCont c1 && utf8Valid rest1
      | [] => false
    else if b = 224 then
      match rest with
      | c1 :: c2 :: rest2 => (160 ≤ c1 && c1 ≤ 191) && (isCont c2 && utf8Valid rest2)
      | _ => false
    else if (225 ≤ b && b ≤ 236) || (b = 238 || b = 239) then
      match rest with
      | c1 :: c2 :: rest2 => isCont c1 && (isCont c2 && utf8Valid rest2)
      | _ => false
    else if b = 237 then
      match rest with
      | c1 :: c2 :: rest2 => (128 ≤ c1 && c1 ≤ 159) && (isCont c2 && utf8Valid rest2)
      | _ => false
    else if b = 240 then
      match rest with
      | c1 :: c2 :: c3 :: rest3 =>
        (144 ≤ c1 && c1 ≤ 191) && (isCont c2 && (isCont c3 && utf8Valid rest3))
      | _ => false
    else if 241 ≤ b && b ≤ 243 then
      match rest with
      | c1 :: c2 :: c3 :: rest3 => isCont c1 && (isCont c2 && (isCont c3 && utf8Valid rest3))
      | _ => false
    else if b = 244 then
      match rest with
      | c1 :: c2 :: c3 :: rest3 =>
        (128 ≤ c1 && c1 ≤ 143) && (isCont c2 && (isCont c3 && utf8Valid rest3))
      | _ => false
    else false

/-- Model of `construct_string_from_byte_vector`: `String::from_utf8(bytes).unwrap()`.
A Rust `String` is its UTF-8 byte sequence, so on success the result carries
exactly the input bytes; the `unwrap` panic on invalid UTF-8 is modelled as
an encoding error. -/
def construct_string_from_byte_vector (bytes : List Nat) : Except Err (List Nat) :=
  if utf8Valid bytes then Except.ok bytes else Except.error Err.encoding

/-- Model of `convert_u32_to_bytes`: `x.to_be_bytes().to_vec()` for a `u32`. -/
def convert_u32_to_bytes (x : Nat) : List Nat :=
  [(x >>> 24) % 256, (x >>> 16) % 256, (x >>> 8) % 256, x % 256]

/-- Model of `convert_byte_vector_to_u32`: big-endian reassembly
`(bytes[0] << 24) | (bytes[1] << 16) | (bytes[2] << 8) | bytes[3]`; indexing
a vector shorter than four bytes panics. -/
def convert_byte_vector_to_u32 (bytes : List Nat) : Except Err Nat :=
  match bytes with
  | b0 :: b1 :: b2 :: b3 :: _ =>
    Except.ok (((b0 <<< 24) ||| (b1 <<< 16)) ||| ((b2 <<< 8) ||| b3))
  | _ => Except.error Err.bounds

/-- The `Header` struct: the two length fields recovered by `read_header`. -/
structure Header where
  name_length : Nat
  data_length : Nat
deriving DecidableEq

/-- The `FileData` struct returned by `decode_data`.  The `name` field is a
Rust `String`, represented by its UTF-8 bytes. -/
structure FileData where
  name : List Nat
  data : List Nat
deriving DecidableEq

/-- Model of `write_header`: one zero flags byte, the big-endian `u32` name length
(`name.len() as u32`, i.e. truncated mod `2^32`), the big-endian `u32` data
length, then sixteen zero salt bytes. -/
def write_header (img : Image) (data : List Nat) (name : List Nat)
    (pixel_cursor : Nat) : Except Err (Image × Nat) := do
  let (img1, c1) ← write_byte_to_image img pixel_cursor 0
  let (img2, c2) ← write_byte_vector_to_image img1 c1
    (convert_u32_to_bytes (name.length % 4294967296))
  let (img3, c3) ← write_byte_vector_to_image img2 c2
    (convert_u32_to_bytes (data.length % 4294967296))
  write_byte_vector_to_image img3 c3 (List.replicate 16 0)

/-- Model of `read_header`: reads the flags byte, two four-byte big-endian length
fields and the sixteen salt bytes, in the same fixed order. -/
def read_header (img : Image) (pixel_cursor : Nat) : Except Err (Header × Nat) := do
  let (_flags, c1) ← read_byte_from_image img pixel_cursor
  let (name_length_vec, c2) ← read_bytes_from_image img c1 4
  let (data_length_vec, c3) ← read_bytes_from_image img c2 4
  let (_salt, c4) ← read_bytes_from_image img c3 16
  let name_length ← convert_byte_vector_to_u32 name_length_vec
  let data_length ← convert_byte_vector_to_u32 data_length_vec
  Except.ok ({ name_length := name_length, data_length := data_length }, c4)

/-- Model of `get_image_capacity`: `img.height() * img.width() - 1000` computed on
`u32`, with both the multiplication and the subtraction wrapping modulo
`2^32` (release-profile semantics; a checked build would abort instead of
wrapping). -/
def get_image_capacity (img : Image) : Nat :=
  ((img.height * img.width) % 4294967296 + 4294967296 - 1000) % 4294967296

/-- Model of `encode_data`: cursor starts at 0; header, then name bytes, then data
bytes. -/
def encode_data (img : Image) (data : List Nat) (name : List Nat) :
    Except Err (Image × Nat) := do
  let (img1, c1) ← write_header img data name 0
  let (img2, c2) ← write_byte_vector_to_image img1 c1 name
  write_byte_vector_to_image img2 c2 data

/-- Model of `decode_data`: cursor starts at 0; reads the header, then exactly
`name_length` name bytes, then exactly `data_length` data bytes, and only
then interprets the name bytes as UTF-8 (the order in which the Rust
expressions are evaluated). -/
def decode_data (img : Image) : Except Err FileData := do
  let (header, c1) ← read_header img 0
  let (file_name_bytes, c2) ← read_bytes_from_image img c1 header.name_length
  let (data_bytes, _c3) ← read_bytes_from_image img c2 header.data_length
  let name ← construct_string_from_byte_vector file_name_bytes
  Except.ok { name := name, data := data_bytes }

/-- The refusal condition of `encode`.  The source computes
`percent_used = (data.len() as f64) / (capacity as f64) * 100.0` and refuses
when `percent_used > 99.9`; the comparison is modelled by the exact rational
inequality `data_len / capacity * 100 > 999/10`, cleared of denominators
(equivalent for positive capacity). -/
def capacity_check_refuses (data_len capacity : Nat) : Bool :=
  1000 * data_len > 999 * capacity

/-- The core of `encode` (file loading, console output and saving stripped):
check the capacity, refuse without touching a pixel when utilization exceeds
the threshold, otherwise run `encode_data`.  A mid-write bounds panic aborts
the Rust process before any output is saved; the image component returned on
that path is immaterial to the claims below and is modelled as the input
image. -/
def encode (img : Image) (data : List Nat) (name : List Nat) : Image × Option Err :=
  if capacity_check_refuses data.length (get_image_capacity img) then
    (img, some Err.capacity)
  else
    match encode_data img data name with
    | Except.ok (img2, _) => (img2, none)
    | Except.error e => (img, some e)

/-- The `+= 1` increment of the source's `u32` pixel cursor with the
release-profile wrap-around modulo `2^32`. -/
def u32succ (c : Nat) : Nat :=
  (c + 1) % 4294967296

/-- Release-faithful variant of `write_byte_to_image`: identical except that
each `*pixel_cursor += 1` wraps modulo `2^32`, as the source's `u32` cursor
does in a release build.  The plain variant above coincides with this one
whenever the stream stays below `2^32` pixels (proved in `wb_u32_eq`). -/
def write_byte_to_image_u32 (img : Image) (pixel_cursor : Nat) (byte : Nat) :
    Except Err (Image × Nat) := do
  let pos0 ← get_pixel_position img pixel_cursor
  let p0 ← getPixel img pos0.1 pos0.2
  let img1 ← putPixel img pos0.1 pos0.2 (pixel_with_low_bits byte p0)
  let pos1 ← get_pixel_position img1 (u32succ pixel_cursor)
  let p1 ← getPixel img1 pos1.1 pos1.2
  let img2 ← putPixel img1 pos1.1 pos1.2 (pixel_with_high_bits byte p1)
  Except.ok (img2, u32succ (u32succ pixel_cursor))

/-- Release-faithful variant of `read_byte_from_image` with the wrapping
`u32` cursor. -/
def read_byte_from_image_u32 (img : Image) (pixel_cursor : Nat) :
    Except Err (Nat × Nat) := do
  let pos0 ← get_pixel_position img pixel_cursor
  let p0 ← getPixel img pos0.1 pos0.2
  let pos1 ← get_pixel_position img (u32succ pixel_cursor)
  let p1 ← getPixel img pos1.1 pos1.2
  Except.ok (byte_from_pixels p0 p1, u32succ (u32succ pixel_cursor))

/-- Release-faithful variant of `write_byte_vector_to_image` with the
wrapping `u32` cursor. -/
def write_byte_vector_to_image_u32 (img : Image) (pixel_cursor : Nat)
    (bytes : List Nat) : Except Err (Image × Nat) :=
  match bytes with
  | [] => Except.ok (img, pixel_cursor)
  | byte :: rest => do
    let (img1, c1) ← write_byte_to_image_u32 img pixel_cursor byte
    write_byte_vector_to_image_u32 img1 c1 rest

/-- Release-faithful variant of `read_bytes_from_image` with the wrapping
`u32` cursor. -/
def read_bytes_from_image_u32 (img : Image) (pixel_cursor : Nat) (length : Nat) :
    Except Err (List Nat × Nat) :=
  match length with
  | 0 => Except.ok ([], pixel_cursor)
  | Nat.succ n => do
    let (byte, c1) ← read_byte_from_image_u32 img pixel_cursor
    let (rest, c2) ← read_bytes_from_image_u32 img c1 n
    Except.ok (byte :: rest, c2)

/-- Release-faithful variant of `write_header` with the wrapping `u32`
cursor. -/
def write_header_u32 (img : Image) (data : List Nat) (name : List Nat)
    (pixel_cursor : Nat) : Except Err (Image × Nat) := do
  let (img1, c1) ← write_byte_to_image_u32 img pixel_cursor 0
  let (img2, c2) ← write_byte_vector_to_image_u32 img1 c1
    (convert_u32_to_bytes (name.length % 4294967296))
  let (img3, c3) ← write_byte_vector_to_image_u32 img2 c2
    (convert_u32_to_bytes (data.length % 4294967296))
  write_byte_vector_to_image_u32 img3 c3 (List.replicate 16 0)

/-- Release-faithful variant of `read_header` with the wrapping `u32`
cursor. -/
def read_header_u32 (img : Image) (pixel_cursor : Nat) : Except Err (Header × Nat) := do
  let (_flags, c1) ← read_byte_from_image_u32 img pixel_cursor
  let (name_length_vec, c2) ← read_bytes_from_image_u32 img c1 4
  let (data_length_vec, c3) ← read_bytes_from_image_u32 img c2 4
  let (_salt, c4) ← read_bytes_from_image_u32 img c3 16
  let name_length ← convert_byte_vector_to_u32 name_length_vec
  let data_length ← convert_byte_vector_to_u32 data_length_vec
  Except.ok ({ name_length := name_length, data_length := data_length }, c4)

/-- Release-faithful variant of `encode_data` with the wrapping `u32`
cursor. -/
def encode_data_u32 (img : Image) (data : List Nat) (name : List Nat) :
    Except Err (Image × Nat) := do
  let (img1, c1) ← write_header_u32 img data name 0
  let (img2, c2) ← write_byte_vector_to_image_u32 img1 c1 name
  write_byte_vector_to_image_u32 img2 c2 data

/-- Release-faithful variant of `decode_data` with the wrapping `u32`
cursor. -/
def decode_data_u32 (img : Image) : Except Err FileData := do
  let (header, c1) ← read_header_u32 img 0
  let (file_name_bytes, c2) ← read_bytes_from_image_u32 img c1 header.name_length
  let (data_bytes, _c3) ← read_bytes_from_image_u32 img c2 header.data_length
  let name ← construct_string_from_byte_vector file_name_bytes
  Except.ok { name := name, data := data_bytes }

/-- A 65538×65536 image: 4295098368 pixels, enough for a name byte and 2^31
data bytes by pixel count, but the byte stream then crosses the `u32`
cursor's range. -/
def cex_img : Image :=
  { width := 65538, height := 65536,
    pixels := List.replicate 4295098368 { r := 1, g := 1, b := 1, a := 1 } }

/-! Basic lemmas about the `Except` plumbing and pixel addressing. -/

theorem except_bind_ok {α β : Type} (a : α) (f : α → Except Err β) :
    (Except.ok a >>= f : Except Err β) = f a := rfl

theorem except_bind_err {α β : Type} (e : Err) (f : α → Except Err β) :
    ((Except.error e : Except Err α) >>= f) = Except.error e := rfl

theorem div_lt_of_lt_mul (c w h : Nat) (hw : 0 < w) (hc : c < w * h) : c / w < h :=
  (Nat.div_lt_iff_lt_mul hw).mpr (by rwa [Nat.mul_comm] at hc)

theorem le_div_of_mul_le (c w h : Nat) (hw : 0 < w) (hc : w * h ≤ c) : h ≤ c / w :=
  (Nat.le_div_iff_mul_le hw).mpr (by rwa [Nat.mul_comm] at hc)

theorem cursor_index (c w : Nat) : c / w * w + c % w = c := by
  rw [Nat.mul_comm]; exact Nat.div_add_mod c w

theorem gpp_ok (img : Image) (c : Nat) (hw : 0 < img.width)
    (hy : c / img.width ≤ img.height) :
    get_pixel_position img c = Except.ok (c % img.width, c / img.width) := by
  unfold get_pixel_position
  rw [if_neg (Nat.pos_iff_ne_zero.mp hw), if_neg]
  push_neg
  exact ⟨le_of_lt (Nat.mod_lt _ hw), hy⟩

theorem gpp_err (img : Image) (c : Nat) (hw : 0 < img.width)
    (hy : img.height < c / img.width) :
    get_pixel_position img c = Except.error Err.bounds := by
  unfold get_pixel_position
  rw [if_neg (Nat.pos_iff_ne_zero.mp hw), if_pos (Or.inr hy)]

theorem getPixel_linear (img : Image) (c : Nat) (p : Rgba) (hw : 0 < img.width)
    (hy : c / img.width < img.height) (hp : img.pixels.get? c = some p) :
    getPixel img (c % img.width) (c / img.width) = Except.ok p := by
  unfold getPixel
  rw [if_pos ⟨Nat.mod_lt _ hw, hy⟩, cursor_index, hp]

theorem getPixel_oob (img : Image) (c : Nat) (hw : 0 < img.width)
    (hc : img.width * img.height ≤ c) :
    getPixel img (c % img.width) (c / img.width) = Except.error Err.bounds := by
  unfold getPixel
  rw [if_neg]
  rintro ⟨-, hy⟩
  exact absurd hy (Nat.not_lt.mpr (le_div_of_mul_le c _ _ hw hc))

theorem putPixel_linear (img : Image) (c : Nat) (p : Rgba) (hw : 0 < img.width)
    (hy : c / img.width < img.height) :
    putPixel img (c % img.width) (c / img.width) p =
      Except.ok { img with pixels := img.pixels.set c p } := by
  unfold putPixel
  rw [if_pos ⟨Nat.mod_lt _ hw, hy⟩, cursor_index]

theorem get?_some_of_lt {l : List Rgba} {n : Nat} (h : n < l.length) :
    ∃ p, l.get? n = some p :=
  ⟨l.get ⟨n, h⟩, List.get?_eq_get h⟩

/-! Success and effect of a single byte write. -/

theorem write_byte_props (img : Image) (c byte : Nat) (hwf : img.wf)
    (hw : 0 < img.width) (hc : c + 2 ≤ img.width * img.height) :
    ∃ img' p q,
      write_byte_to_image img c byte = Except.ok (img', c + 2) ∧
      img'.width = img.width ∧ img'.height = img.height ∧
      img'.pixels.length = img.pixels.length ∧
      img.pixels.get? c = some p ∧ img.pixels.get? (c + 1) = some q ∧
      img'.pixels.get? c = some (pixel_with_low_bits byte p) ∧
      img'.pixels.get? (c + 1) = some (pixel_with_high_bits byte q) ∧
      ∀ i, i ≠ c → i ≠ c + 1 → img'.pixels.get? i = img.pixels.get? i := by
  have hc0 : c < img.width * img.height := by omega
  have hc1 : c + 1 < img.width * img.height := by omega
  have hlen0 : c < img.pixels.length := by rw [hwf]; exact hc0
  have hlen1 : c + 1 < img.pixels.length := by rw [hwf]; exact hc1
  obtain ⟨p, hp⟩ := get?_some_of_lt hlen0
  obtain ⟨q, hq⟩ := get?_some_of_lt hlen1
  have hy0 : c / img.width < img.height := div_lt_of_lt_mul c _ _ hw hc0
  have hy1 : (c + 1) / img.width < img.height := div_lt_of_lt_mul (c + 1) _ _ hw hc1
  set img1 : Image := { img with pixels := img.pixels.set c (pixel_with_low_bits byte p) }
    with himg1
  have himg1len : img1.pixels.length = img.pixels.length := by
    simp [himg1]
  have hq1 : img1.pixels.get? (c + 1) = some q := by
    simpa [himg1, List.get?_set_ne _ _ (by omega : c ≠ c + 1)] using hq
  set img2 : Image := { img1 with pixels := img1.pixels.set (c + 1) (pixel_with_high_bits byte q) }
    with himg2
  refine ⟨img2, p, q, ?_, by simp [himg2, himg1], by simp [himg2, himg1],
    by simp [himg2, himg1], hp, hq, ?_, ?_, ?_⟩
  · unfold write_byte_to_image
    rw [gpp_ok img c hw (le_of_lt hy0), except_bind_ok]
    rw [show ((c % img.width, c / img.width) : Nat × Nat).1 = c % img.width from rfl,
      show ((c % img.width, c / img.width) : Nat × Nat).2 = c / img.width from rfl]
    rw [getPixel_linear img c p hw hy0 hp, except_bind_ok]
    rw [putPixel_linear img c _ hw hy0, except_bind_ok, ← himg1]
    have hw1 : 0 < img1.width := by simpa [himg1] using hw
    have hy1' : (c + 1) / img1.width < img1.height := by simpa [himg1] using hy1
    rw [gpp_ok img1 (c + 1) hw1 (le_of_lt hy1'), except_bind_ok]
    rw [show ((c + 1) % img1.width, (c + 1) / img1.width).1 = (c + 1) % img1.width from rfl,
      show ((c + 1) % img1.width, (c + 1) / img1.width).2 = (c + 1) / img1.width from rfl]
    rw [getPixel_linear img1 (c + 1) q hw1 hy1' hq1, except_bind_ok]
    rw [putPixel_linear img1 (c + 1) _ hw1 hy1', except_bind_ok]
  · rw [show img2.pixels = img1.pixels.set (c + 1) (pixel_with_high_bits byte q) from rfl]
    rw [List.get?_set_ne _ _ (by omega : c + 1 ≠ c)]
    rw [show img1.pixels = img.pixels.set c (pixel_with_low_bits byte p) from rfl]
    rw [List.get?_set_eq_of_lt _ hlen0]
  · rw [show img2.pixels = img1.pixels.set (c + 1) (pixel_with_high_bits byte q) from rfl]
    rw [List.get?_set_eq_of_lt _ (by rw [himg1len]; exact hlen1)]
  · intro i hi0 hi1
    rw [show img2.pixels = img1.pixels.set (c + 1) (pixel_with_high_bits byte q) from rfl]
    rw [List.get?_set_ne _ _ (fun h => hi1 h.symm)]
    rw [show img1.pixels = img.pixels.set c (pixel_with_low_bits byte p) from rfl]
    rw [List.get?_set_ne _ _ (fun h => hi0 h.symm)]

theorem pair_fst {α β : Type} (a : α) (b : β) : (a, b).1 = a := rfl

theorem pair_snd {α β : Type} (a : α) (b : β) : (a, b).2 = b := rfl

theorem gpp_shape (img : Image) (c : Nat) (pos : Nat × Nat)
    (h : get_pixel_position img c = Except.ok pos) :
    0 < img.width ∧ pos = (c % img.width, c / img.width) ∧
      c / img.width ≤ img.height := by
  unfold get_pixel_position at h
  by_cases hw : img.width = 0
  · rw [if_pos hw] at h; cases h
  · rw [if_neg hw] at h
    by_cases hcond : c % img.width > img.width ∨ c / img.width > img.height
    · rw [if_pos hcond] at h; cases h
    · rw [if_neg hcond] at h
      cases h
      push_neg at hcond
      exact ⟨Nat.pos_of_ne_zero hw, rfl, hcond.2⟩

/-- A byte write with the second pixel (or both) out of range fails with a
bounds error: either `get_pixel_position` rejects the cursor (`y > height`),
or the pixel lookup itself panics (`y = height`). -/
theorem write_byte_fails (img : Image) (c byte : Nat) (hwf : img.wf)
    (hw : 0 < img.width) (hc : img.width * img.height < c + 2) :
    write_byte_to_image img c byte = Except.error Err.bounds := by
  by_cases h1 : c < img.width * img.height
  · -- first pixel in bounds, second out of bounds
    have hc1 : img.width * img.height ≤ c + 1 := by omega
    have hlen0 : c < img.pixels.length := by rw [hwf]; exact h1
    obtain ⟨p, hp⟩ := get?_some_of_lt hlen0
    have hy0 : c / img.width < img.height := div_lt_of_lt_mul c _ _ hw h1
    unfold write_byte_to_image
    rw [gpp_ok img c hw (le_of_lt hy0), except_bind_ok, pair_fst, pair_snd,
      getPixel_linear img c p hw hy0 hp, except_bind_ok,
      putPixel_linear img c _ hw hy0, except_bind_ok]
    set img1 : Image :=
      { img with pixels := img.pixels.set c (pixel_with_low_bits byte p) } with himg1
    have hw1 : 0 < img1.width := by simpa [himg1] using hw
    have hd1 : img1.width * img1.height ≤ c + 1 := by simpa [himg1] using hc1
    by_cases h2 : img1.height < (c + 1) / img1.width
    · rw [gpp_err img1 (c + 1) hw1 h2, except_bind_err]
    · push_neg at h2
      rw [gpp_ok img1 (c + 1) hw1 h2, except_bind_ok, pair_fst, pair_snd,
        getPixel_oob img1 (c + 1) hw1 hd1, except_bind_err]
  · push_neg at h1
    unfold write_byte_to_image
    by_cases h2 : img.height < c / img.width
    · rw [gpp_err img c hw h2, except_bind_err]
    · push_neg at h2
      rw [gpp_ok img c hw h2, except_bind_ok, pair_fst, pair_snd,
        getPixel_oob img c hw h1, except_bind_err]

theorem read_byte_ok (img : Image) (c : Nat) (p q : Rgba) (hw : 0 < img.width)
    (hc : c + 2 ≤ img.width * img.height)
    (hp : img.pixels.get? c = some p) (hq : img.pixels.get? (c + 1) = some q) :
    read_byte_from_image img c = Except.ok (byte_from_pixels p q, c + 2) := by
  have hy0 : c / img.width < img.height := div_lt_of_lt_mul c _ _ hw (by omega)
  have hy1 : (c + 1) / img.width < img.height := div_lt_of_lt_mul (c + 1) _ _ hw (by omega)
  unfold read_byte_from_image
  rw [gpp_ok img c hw (le_of_lt hy0), except_bind_ok, pair_fst, pair_snd,
    getPixel_linear img c p hw hy0 hp, except_bind_ok,
    gpp_ok img (c + 1) hw (le_of_lt hy1), except_bind_ok, pair_fst, pair_snd,
    getPixel_linear img (c + 1) q hw hy1 hq, except_bind_ok]

theorem read_byte_shape (img : Image) (c : Nat) (r : Nat × Nat)
    (h : read_byte_from_image img c = Except.ok r) : r.2 = c + 2 := by
  unfold read_byte_from_image at h
  cases h0 : get_pixel_position img c with
  | error e => rw [h0, except_bind_err] at h; cases h
  | ok pos0 =>
    rw [h0, except_bind_ok] at h
    cases h1 : getPixel img pos0.1 pos0.2 with
    | error e => rw [h1, except_bind_err] at h; cases h
    | ok p0 =>
      rw [h1, except_bind_ok] at h
      cases h2 : get_pixel_position img (c + 1) with
      | error e => rw [h2, except_bind_err] at h; cases h
      | ok pos1 =>
        rw [h2, except_bind_ok] at h
        cases h3 : getPixel img pos1.1 pos1.2 with
        | error e => rw [h3, except_bind_err] at h; cases h
        | ok p1 =>
          rw [h3, except_bind_ok] at h
          cases h
          rfl

theorem getPixel_ext (img1 img2 : Image) (c : Nat)
    (hW : img2.width = img1.width) (hH : img2.height = img1.height)
    (hpx : img2.pixels.get? c = img1.pixels.get? c) :
    getPixel img2 (c % img1.width) (c / img1.width) =
      getPixel img1 (c % img1.width) (c / img1.width) := by
  unfold getPixel
  rw [hW, hH, cursor_index, hpx]

/-- Reading a byte depends only on the dimensions and the two pixels under
the cursor. -/
theorem read_byte_ext (img1 img2 : Image) (c : Nat)
    (hW : img2.width = img1.width) (hH : img2.height = img1.height)
    (hpx : ∀ i, i < c + 2 → img2.pixels.get? i = img1.pixels.get? i) :
    read_byte_from_image img2 c = read_byte_from_image img1 c := by
  have hgpp0 : get_pixel_position img2 c = get_pixel_position img1 c := by
    unfold get_pixel_position; rw [hW, hH]
  have hgpp1 : get_pixel_position img2 (c + 1) = get_pixel_position img1 (c + 1) := by
    unfold get_pixel_position; rw [hW, hH]
  unfold read_byte_from_image
  rw [hgpp0, hgpp1]
  cases h0 : get_pixel_position img1 c with
  | error e => rw [except_bind_err, except_bind_err]
  | ok pos0 =>
    rw [except_bind_ok, except_bind_ok]
    obtain ⟨-, hpos, -⟩ := gpp_shape img1 c pos0 h0
    subst hpos
    rw [pair_fst, pair_snd, getPixel_ext img1 img2 c hW hH (hpx c (by omega))]
    cases hk0 : getPixel img1 (c % img1.width) (c / img1.width) with
    | error e => rw [except_bind_err, except_bind_err]
    | ok p0 =>
      rw [except_bind_ok, except_bind_ok]
      cases h1 : get_pixel_position img1 (c + 1) with
      | error e => rw [except_bind_err, except_bind_err]
      | ok pos1 =>
        rw [except_bind_ok, except_bind_ok]
        obtain ⟨-, hpos1, -⟩ := gpp_shape img1 (c + 1) pos1 h1
        subst hpos1
        rw [pair_fst, pair_snd,
          getPixel_ext img1 img2 (c + 1) hW hH (hpx (c + 1) (by omega))]

/-! Bit-level correctness of the byte embedding. -/

theorem bitOf_le_one (b k : Nat) : bitOf b k ≤ 1 := by
  unfold bitOf
  rw [Nat.and_one_is_mod]
  omega

theorem and_one_byte_with (ch x : Nat) (hx : x ≤ 1) :
    byte_with_x_last_bit ch x &&& 1 = x := by
  unfold byte_with_x_last_bit
  interval_cases x
  · rw [if_neg (by omega : ¬(0 : Nat) = 1), Nat.and_assoc,
      show (254 &&& 1 : Nat) = 0 by decide, Nat.and_zero]
  · rw [if_pos rfl, Nat.and_comm, Nat.and_or_distrib_left,
      Nat.and_comm 1 ch, Nat.and_one_is_mod]
    rcases Nat.mod_two_eq_zero_or_one ch with h | h <;> rw [h] <;> decide

theorem bitOf_mod256 (b k : Nat) (hk : k < 8) : bitOf (b % 256) k = bitOf b k := by
  unfold bitOf
  rw [Nat.shiftRight_eq_div_pow, Nat.shiftRight_eq_div_pow,
    Nat.and_one_is_mod, Nat.and_one_is_mod]
  interval_cases k <;> (try norm_num) <;> omega

set_option maxRecDepth 4000 in
theorem bits_assemble : ∀ m : Nat, m < 256 →
    ((((((((0 ||| (bitOf m 0 <<< 0)) ||| (bitOf m 1 <<< 1)) ||| (bitOf m 2 <<< 2)) |||
      (bitOf m 3 <<< 3)) ||| (bitOf m 4 <<< 4)) ||| (bitOf m 5 <<< 5)) |||
      (bitOf m 6 <<< 6)) ||| (bitOf m 7 <<< 7)) = m := by decide

/-- Extracting a byte from the two pixels into which it was embedded yields
the byte reduced mod 256 (full `u8` values are returned unchanged). -/
theorem byte_from_pixels_roundtrip (byte : Nat) (p q : Rgba) :
    byte_from_pixels (pixel_with_low_bits byte p) (pixel_with_high_bits byte q) =
      byte % 256 := by
  simp only [byte_from_pixels, pixel_with_low_bits, pixel_with_high_bits,
    get_last_bit_of_byte]
  rw [and_one_byte_with _ _ (bitOf_le_one byte 0), and_one_byte_with _ _ (bitOf_le_one byte 1),
    and_one_byte_with _ _ (bitOf_le_one byte 2), and_one_byte_with _ _ (bitOf_le_one byte 3),
    and_one_byte_with _ _ (bitOf_le_one byte 4), and_one_byte_with _ _ (bitOf_le_one byte 5),
    and_one_byte_with _ _ (bitOf_le_one byte 6), and_one_byte_with _ _ (bitOf_le_one byte 7)]
  rw [← bitOf_mod256 byte 0 (by omega), ← bitOf_mod256 byte 1 (by omega),
    ← bitOf_mod256 byte 2 (by omega), ← bitOf_mod256 byte 3 (by omega),
    ← bitOf_mod256 byte 4 (by omega), ← bitOf_mod256 byte 5 (by omega),
    ← bitOf_mod256 byte 6 (by omega), ← bitOf_mod256 byte 7 (by omega)]
  exact bits_assemble (byte % 256) (Nat.mod_lt _ (by omega))

/-- Success and effect of writing a byte vector from cursor `c`: the cursor
advances by two pixels per byte, every pixel outside the written window
`[c, c + 2·len)` is untouched, and reading the window back yields the bytes
reduced mod 256. -/
theorem write_vec_props (bytes : List Nat) (img : Image) (c : Nat) (hwf : img.wf)
    (hw : 0 < img.width) (hc : c + 2 * bytes.length ≤ img.width * img.height) :
    ∃ img',
      write_byte_vector_to_image img c bytes =
        Except.ok (img', c + 2 * bytes.length) ∧
      img'.width = img.width ∧ img'.height = img.height ∧
      img'.pixels.length = img.pixels.length ∧
      (∀ i, i < c → img'.pixels.get? i = img.pixels.get? i) ∧
      (∀ i, c + 2 * bytes.length ≤ i → img'.pixels.get? i = img.pixels.get? i) ∧
      read_bytes_from_image img' c bytes.length =
        Except.ok (bytes.map (fun b => b % 256), c + 2 * bytes.length) := by
  induction bytes generalizing img c with
  | nil =>
    refine ⟨img, ?_, rfl, rfl, rfl, fun i _ => rfl, fun i _ => rfl, ?_⟩
    · simp [write_byte_vector_to_image]
    · simp [read_bytes_from_image]
  | cons b rest ih =>
    have harith : c + 2 * (b :: rest).length = c + 2 + 2 * rest.length := by
      rw [List.length_cons]; omega
    have hc2 : c + 2 ≤ img.width * img.height := by
      rw [harith] at hc; omega
    obtain ⟨img1, p, q, hwb, hW1, hH1, hL1, hp, hq, hpc, hpc1, hpres⟩ :=
      write_byte_props img c b hwf hw hc2
    have hwf1 : img1.wf := by
      unfold Image.wf at hwf ⊢; rw [hL1, hW1, hH1]; exact hwf
    have hw1 : 0 < img1.width := by rw [hW1]; exact hw
    have hc1 : (c + 2) + 2 * rest.length ≤ img1.width * img1.height := by
      rw [hW1, hH1]; rw [harith] at hc; omega
    obtain ⟨img', hwv, hW', hH', hL', hlow, hhigh, hread⟩ := ih img1 (c + 2) hwf1 hw1 hc1
    rw [harith]
    refine ⟨img', ?_, by rw [hW', hW1], by rw [hH', hH1], by rw [hL', hL1], ?_, ?_, ?_⟩
    · simp only [write_byte_vector_to_image]
      rw [hwb, except_bind_ok]
      exact hwv
    · intro i hi
      rw [hlow i (by omega)]
      exact hpres i (by omega) (by omega)
    · intro i hi
      rw [hhigh i (by omega)]
      exact hpres i (by omega) (by omega)
    · have hg0 : img'.pixels.get? c = some (pixel_with_low_bits b p) := by
        rw [hlow c (by omega)]; exact hpc
      have hg1 : img'.pixels.get? (c + 1) = some (pixel_with_high_bits b q) := by
        rw [hlow (c + 1) (by omega)]; exact hpc1
      have hw' : 0 < img'.width := by rw [hW', hW1]; exact hw
      have hcc : c + 2 ≤ img'.width * img'.height := by rw [hW', hW1, hH', hH1]; omega
      have hrb := read_byte_ok img' c _ _ hw' hcc hg0 hg1
      rw [List.length_cons, List.map_cons]
      simp only [read_bytes_from_image]
      rw [hrb, except_bind_ok, hread, except_bind_ok]
      simp only [pair_fst, pair_snd]
      rw [byte_from_pixels_roundtrip]

/-- Writing a nonempty byte vector that does not fit aborts with a bounds
error. -/
theorem write_vec_fails (bytes : List Nat) (img : Image) (c : Nat) (hwf : img.wf)
    (hw : 0 < img.width) (hne : bytes ≠ [])
    (hc : img.width * img.height < c + 2 * bytes.length) :
    write_byte_vector_to_image img c bytes = Except.error Err.bounds := by
  induction bytes generalizing img c with
  | nil => exact absurd rfl hne
  | cons b rest ih =>
    by_cases h2 : c + 2 ≤ img.width * img.height
    · obtain ⟨img1, p, q, hwb, hW1, hH1, hL1, -, -, -, -, -⟩ :=
        write_byte_props img c b hwf hw h2
      have hwf1 : img1.wf := by
        unfold Image.wf at hwf ⊢; rw [hL1, hW1, hH1]; exact hwf
      have hw1 : 0 < img1.width := by rw [hW1]; exact hw
      have hrest : rest ≠ [] := by
        intro h
        subst h
        rw [List.length_cons, List.length_nil] at hc
        omega
      simp only [write_byte_vector_to_image]
      rw [hwb, except_bind_ok]
      refine ih img1 (c + 2) hwf1 hw1 hrest ?_
      rw [hW1, hH1]
      rw [List.length_cons] at hc
      omega
    · push_neg at h2
      simp only [write_byte_vector_to_image]
      rw [write_byte_fails img c b hwf hw h2, except_bind_err]

/-- Reading a byte vector that fits always succeeds. -/
theorem read_bytes_ok_of_fits (L : Nat) (img : Image) (c : Nat) (hwf : img.wf)
    (hw : 0 < img.width) (hc : c + 2 * L ≤ img.width * img.height) :
    ∃ bs, read_bytes_from_image img c L = Except.ok (bs, c + 2 * L) ∧
      bs.length = L := by
  induction L generalizing c with
  | zero => exact ⟨[], by simp [read_bytes_from_image], rfl⟩
  | succ n ih =>
    have harith : c + 2 * (n + 1) = c + 2 + 2 * n := by omega
    have h2 : c + 2 ≤ img.width * img.height := by omega
    have hlen0 : c < img.pixels.length := by
      rw [hwf]; omega
    have hlen1 : c + 1 < img.pixels.length := by
      rw [hwf]; omega
    obtain ⟨p, hp⟩ := get?_some_of_lt hlen0
    obtain ⟨q, hq⟩ := get?_some_of_lt hlen1
    have hrb := read_byte_ok img c p q hw h2 hp hq
    obtain ⟨bs, hbs, hlen⟩ := ih (c + 2) (by omega)
    rw [harith]
    refine ⟨byte_from_pixels p q :: bs, ?_, by simp [hlen]⟩
    simp only [read_bytes_from_image]
    rw [hrb, except_bind_ok, hbs, except_bind_ok]

/-- Reading bytes depends only on the dimensions and the pixels of the
window `[0, c + 2·len)`. -/
theorem read_bytes_ext (L : Nat) (img1 img2 : Image) (c : Nat)
    (hW : img2.width = img1.width) (hH : img2.height = img1.height)
    (hpx : ∀ i, i < c + 2 * L → img2.pixels.get? i = img1.pixels.get? i) :
    read_bytes_from_image img2 c L = read_bytes_from_image img1 c L := by
  induction L generalizing c with
  | zero => rfl
  | succ n ih =>
    simp only [read_bytes_from_image]
    rw [read_byte_ext img1 img2 c hW hH (fun i hi => hpx i (by omega))]
    cases h0 : read_byte_from_image img1 c with
    | error e => rw [except_bind_err, except_bind_err]
    | ok r =>
      rw [except_bind_ok, except_bind_ok]
      obtain ⟨bv, cv⟩ := r
      have hcv : cv = c + 2 := read_byte_shape img1 c (bv, cv) h0
      subst hcv
      rw [ih (c + 2) (fun i hi => hpx i (by omega))]

/-! Big-endian length encoding. -/

theorem convert_len (x : Nat) : (convert_u32_to_bytes x).length = 4 := rfl

theorem convert_bytes_lt (x : Nat) : ∀ b ∈ convert_u32_to_bytes x, b < 256 := by
  unfold convert_u32_to_bytes
  intro b hb
  simp only [List.mem_cons, List.not_mem_nil, or_false] at hb
  rcases hb with h | h | h | h <;> subst h <;> exact Nat.mod_lt _ (by omega)

theorem map_mod_of_lt (l : List Nat) (h : ∀ b ∈ l, b < 256) :
    l.map (fun b => b % 256) = l := by
  induction l with
  | nil => rfl
  | cons x xs ih =>
    rw [List.map_cons, ih (fun b hb => h b (List.mem_cons_of_mem x hb)),
      Nat.mod_eq_of_lt (h x (List.mem_cons_self x xs))]

/-- Big-endian serialization of a 32-bit value followed by big-endian
reassembly is the identity. -/
theorem convert_roundtrip (n : Nat) (hn : n < 4294967296) :
    convert_byte_vector_to_u32 (convert_u32_to_bytes n) = Except.ok n := by
  simp only [convert_u32_to_bytes, convert_byte_vector_to_u32]
  congr 1
  have h256 : (256 : Nat) = 2 ^ 8 := by norm_num
  rw [h256]
  apply Nat.eq_of_testBit_eq
  intro i
  simp only [Nat.testBit_or, Nat.testBit_shiftLeft, Nat.testBit_mod_two_pow,
    Nat.testBit_shiftRight]
  by_cases h1 : i < 8
  · simp [show ¬(24 ≤ i) by omega, show ¬(16 ≤ i) by omega, show ¬(8 ≤ i) by omega, h1]
  · by_cases h2 : i < 16
    · simp [show ¬(24 ≤ i) by omega, show ¬(16 ≤ i) by omega, show 8 ≤ i by omega,
        show i - 8 < 8 by omega, show 8 + (i - 8) = i by omega, h1]
    · by_cases h3 : i < 24
      · simp [show ¬(24 ≤ i) by omega, show 16 ≤ i by omega, show 8 ≤ i by omega,
          show i - 16 < 8 by omega, show ¬(i - 8 < 8) by omega,
          show 16 + (i - 16) = i by omega, h1]
      · by_cases h4 : i < 32
        · simp [show 24 ≤ i by omega, show 16 ≤ i by omega, show 8 ≤ i by omega,
            show i - 24 < 8 by omega, show ¬(i - 16 < 8) by omega,
            show ¬(i - 8 < 8) by omega, show 24 + (i - 24) = i by omega, h1]
        · have hni : Nat.testBit n i = false := Nat.testBit_lt_two_pow (by
            calc n < 4294967296 := hn
            _ = 2 ^ 32 := by norm_num
            _ ≤ 2 ^ i := Nat.pow_le_pow_right (by omega) (by omega))
          simp [show ¬(i - 24 < 8) by omega, show ¬(i - 16 < 8) by omega,
            show ¬(i - 8 < 8) by omega, show ¬(i < 8) by omega, hni]

theorem wf_transfer (img img' : Image) (hW : img'.width = img.width)
    (hH : img'.height = img.height) (hL : img'.pixels.length = img.pixels.length)
    (hwf : img.wf) : img'.wf := by
  unfold Image.wf at hwf ⊢
  rw [hL, hW, hH]
  exact hwf

/-- Success and effect of `write_header`: it always consumes exactly 25
logical bytes — 50 pixels — regardless of the payload, preserves every pixel
outside its window, and reading the header back from the resulting image
recovers the two (`as u32`-truncated) lengths. -/
theorem write_header_props (img : Image) (data name : List Nat) (c : Nat)
    (hwf : img.wf) (hw : 0 < img.width) (hc : c + 50 ≤ img.width * img.height) :
    ∃ img',
      write_header img data name c = Except.ok (img', c + 50) ∧
      img'.width = img.width ∧ img'.height = img.height ∧
      img'.pixels.length = img.pixels.length ∧
      (∀ i, i < c → img'.pixels.get? i = img.pixels.get? i) ∧
      (∀ i, c + 50 ≤ i → img'.pixels.get? i = img.pixels.get? i) ∧
      read_header img' c = Except.ok
        ({ name_length := name.length % 4294967296,
           data_length := data.length % 4294967296 }, c + 50) := by
  -- flags byte: cursor c → c + 2
  obtain ⟨imgA, p0, q0, hwbA, hWA, hHA, hLA, hpA, hqA, hpcA, hpc1A, hpresA⟩ :=
    write_byte_props img c 0 hwf hw (by omega)
  have hwfA : imgA.wf := wf_transfer img imgA hWA hHA hLA hwf
  have hwA : 0 < imgA.width := by rw [hWA]; exact hw
  -- name length: cursor c + 2 → c + 10
  obtain ⟨imgB, hwvB, hWB, hHB, hLB, hlowB, hhighB, hreadB⟩ :=
    write_vec_props (convert_u32_to_bytes (name.length % 4294967296)) imgA (c + 2)
      hwfA hwA (by rw [convert_len, hWA, hHA]; omega)
  rw [convert_len] at hwvB hhighB hreadB
  rw [show c + 2 + 2 * 4 = c + 10 by omega] at hwvB hreadB
  have hhighB' : ∀ i, c + 10 ≤ i → imgB.pixels.get? i = imgA.pixels.get? i :=
    fun i hi => hhighB i (by omega)
  have hwfB : imgB.wf := wf_transfer imgA imgB hWB hHB hLB hwfA
  have hwB : 0 < imgB.width := by rw [hWB]; exact hwA
  -- data length: cursor c + 10 → c + 18
  obtain ⟨imgC, hwvC, hWC, hHC, hLC, hlowC, hhighC, hreadC⟩ :=
    write_vec_props (convert_u32_to_bytes (data.length % 4294967296)) imgB (c + 10)
      hwfB hwB (by rw [convert_len, hWB, hWA, hHB, hHA]; omega)
  rw [convert_len] at hwvC hhighC hreadC
  rw [show c + 10 + 2 * 4 = c + 18 by omega] at hwvC hreadC
  have hhighC' : ∀ i, c + 18 ≤ i → imgC.pixels.get? i = imgB.pixels.get? i :=
    fun i hi => hhighC i (by omega)
  have hwfC : imgC.wf := wf_transfer imgB imgC hWC hHC hLC hwfB
  have hwC : 0 < imgC.width := by rw [hWC]; exact hwB
  -- salt: cursor c + 18 → c + 50
  obtain ⟨imgD, hwvD, hWD, hHD, hLD, hlowD, hhighD, hreadD⟩ :=
    write_vec_props (List.replicate 16 0) imgC (c + 18) hwfC hwC
      (by rw [List.length_replicate, hWC, hWB, hWA, hHC, hHB, hHA]; omega)
  rw [List.length_replicate] at hwvD hhighD hreadD
  rw [show c + 18 + 2 * 16 = c + 50 by omega] at hwvD hreadD
  have hhighD' : ∀ i, c + 50 ≤ i → imgD.pixels.get? i = imgC.pixels.get? i :=
    fun i hi => hhighD i (by omega)
  have hWDi : imgD.width = img.width := by rw [hWD, hWC, hWB, hWA]
  have hHDi : imgD.height = img.height := by rw [hHD, hHC, hHB, hHA]
  have hLDi : imgD.pixels.length = img.pixels.length := by rw [hLD, hLC, hLB, hLA]
  -- pixel agreement of the final image with the intermediate images
  have hDB : ∀ i, i < c + 10 → imgD.pixels.get? i = imgB.pixels.get? i := by
    intro i hi
    rw [hlowD i (by omega), hlowC i (by omega)]
  have hDC : ∀ i, i < c + 18 → imgD.pixels.get? i = imgC.pixels.get? i := by
    intro i hi
    exact hlowD i (by omega)
  have hDA : ∀ i, i < c + 2 → imgD.pixels.get? i = imgA.pixels.get? i := by
    intro i hi
    rw [hDB i (by omega), hlowB i (by omega)]
  -- the flags byte read back from the final image
  have hg0 : imgD.pixels.get? c = some (pixel_with_low_bits 0 p0) := by
    rw [hDA c (by omega)]; exact hpcA
  have hg1 : imgD.pixels.get? (c + 1) = some (pixel_with_high_bits 0 q0) := by
    rw [hDA (c + 1) (by omega)]; exact hpc1A
  have hwDpos : 0 < imgD.width := by rw [hWDi]; exact hw
  have hrbD : read_byte_from_image imgD c =
      Except.ok (byte_from_pixels (pixel_with_low_bits 0 p0) (pixel_with_high_bits 0 q0),
        c + 2) :=
    read_byte_ok imgD c _ _ hwDpos (by rw [hWDi, hHDi]; omega) hg0 hg1
  -- the three vector reads transported to the final image
  have hreadBD : read_bytes_from_image imgD (c + 2) 4 =
      Except.ok ((convert_u32_to_bytes (name.length % 4294967296)).map (fun b => b % 256),
        c + 10) := by
    rw [read_bytes_ext 4 imgB imgD (c + 2) (by rw [hWD, hWC]) (by rw [hHD, hHC])
      (fun i hi => hDB i (by omega))]
    exact hreadB
  have hreadCD : read_bytes_from_image imgD (c + 10) 4 =
      Except.ok ((convert_u32_to_bytes (data.length % 4294967296)).map (fun b => b % 256),
        c + 18) := by
    rw [read_bytes_ext 4 imgC imgD (c + 10) (by rw [hWD]) (by rw [hHD])
      (fun i hi => hDC i (by omega))]
    exact hreadC
  have hmapB : (convert_u32_to_bytes (name.length % 4294967296)).map (fun b => b % 256) =
      convert_u32_to_bytes (name.length % 4294967296) :=
    map_mod_of_lt _ (convert_bytes_lt _)
  have hmapC : (convert_u32_to_bytes (data.length % 4294967296)).map (fun b => b % 256) =
      convert_u32_to_bytes (data.length % 4294967296) :=
    map_mod_of_lt _ (convert_bytes_lt _)
  have hcvB : convert_byte_vector_to_u32
      ((convert_u32_to_bytes (name.length % 4294967296)).map (fun b => b % 256)) =
      Except.ok (name.length % 4294967296) := by
    rw [hmapB]
    exact convert_roundtrip _ (Nat.mod_lt _ (by omega))
  have hcvC : convert_byte_vector_to_u32
      ((convert_u32_to_bytes (data.length % 4294967296)).map (fun b => b % 256)) =
      Except.ok (data.length % 4294967296) := by
    rw [hmapC]
    exact convert_roundtrip _ (Nat.mod_lt _ (by omega))
  refine ⟨imgD, ?_, hWDi, hHDi, hLDi, ?_, ?_, ?_⟩
  · -- the write computation
    simp only [write_header]
    rw [hwbA, except_bind_ok]
    show (do
      let (img2, c2) ← write_byte_vector_to_image imgA (c + 2)
        (convert_u32_to_bytes (name.length % 4294967296))
      let (img3, c3) ← write_byte_vector_to_image img2 c2
        (convert_u32_to_bytes (data.length % 4294967296))
      write_byte_vector_to_image img3 c3 (List.replicate 16 0)) =
      Except.ok (imgD, c + 50)
    rw [hwvB, except_bind_ok]
    show (do
      let (img3, c3) ← write_byte_vector_to_image imgB (c + 10)
        (convert_u32_to_bytes (data.length % 4294967296))
      write_byte_vector_to_image img3 c3 (List.replicate 16 0)) =
      Except.ok (imgD, c + 50)
    rw [hwvC, except_bind_ok]
    show write_byte_vector_to_image imgC (c + 18) (List.replicate 16 0) =
      Except.ok (imgD, c + 50)
    exact hwvD
  · intro i hi
    rw [hDA i (by omega)]
    exact hpresA i (by omega) (by omega)
  · intro i hi
    rw [hhighD' i (by omega), hhighC' i (by omega), hhighB' i (by omega)]
    exact hpresA i (by omega) (by omega)
  · -- the read-back computation
    simp only [read_header]
    rw [hrbD, except_bind_ok]
    show (do
      let (name_length_vec, c2) ← read_bytes_from_image imgD (c + 2) 4
      let (data_length_vec, c3) ← read_bytes_from_image imgD c2 4
      let (_salt, c4) ← read_bytes_from_image imgD c3 16
      let name_length ← convert_byte_vector_to_u32 name_length_vec
      let data_length ← convert_byte_vector_to_u32 data_length_vec
      Except.ok (Header.mk name_length data_length, c4)) =
      Except.ok (Header.mk (name.length % 4294967296) (data.length % 4294967296), c + 50)
    rw [hreadBD, except_bind_ok]
    show (do
      let (data_length_vec, c3) ← read_bytes_from_image imgD (c + 10) 4
      let (_salt, c4) ← read_bytes_from_image imgD c3 16
      let name_length ← convert_byte_vector_to_u32
        ((convert_u32_to_bytes (name.length % 4294967296)).map (fun b => b % 256))
      let data_length ← convert_byte_vector_to_u32 data_length_vec
      Except.ok (Header.mk name_length data_length, c4)) =
      Except.ok (Header.mk (name.length % 4294967296) (data.length % 4294967296), c + 50)
    rw [hreadCD, except_bind_ok]
    show (do
      let (_salt, c4) ← read_bytes_from_image imgD (c + 18) 16
      let name_length ← convert_byte_vector_to_u32
        ((convert_u32_to_bytes (name.length % 4294967296)).map (fun b => b % 256))
      let data_length ← convert_byte_vector_to_u32
        ((convert_u32_to_bytes (data.length % 4294967296)).map (fun b => b % 256))
      Except.ok (Header.mk name_length data_length, c4)) =
      Except.ok (Header.mk (name.length % 4294967296) (data.length % 4294967296), c + 50)
    rw [hreadD, except_bind_ok]
    show (do
      let name_length ← convert_byte_vector_to_u32
        ((convert_u32_to_bytes (name.length % 4294967296)).map (fun b => b % 256))
      let data_length ← convert_byte_vector_to_u32
        ((convert_u32_to_bytes (data.length % 4294967296)).map (fun b => b % 256))
      Except.ok (Header.mk name_length data_length, c + 50)) =
      Except.ok (Header.mk (name.length % 4294967296) (data.length % 4294967296), c + 50)
    rw [hcvB, except_bind_ok, hcvC, except_bind_ok]

theorem read_bytes_shape (L : Nat) (img : Image) (c : Nat) (r : List Nat × Nat)
    (h : read_bytes_from_image img c L = Except.ok r) : r.2 = c + 2 * L := by
  induction L generalizing c r with
  | zero =>
    simp only [read_bytes_from_image] at h
    cases h
    show c = c + 2 * 0
    omega
  | succ n ih =>
    simp only [read_bytes_from_image] at h
    cases h0 : read_byte_from_image img c with
    | error e => rw [h0, except_bind_err] at h; cases h
    | ok r0 =>
      rw [h0, except_bind_ok] at h
      obtain ⟨b0, c0⟩ := r0
      have hc0 : c0 = c + 2 := read_byte_shape img c (b0, c0) h0
      subst hc0
      cases h1 : read_bytes_from_image img (c + 2) n with
      | error e => rw [h1, except_bind_err] at h; cases h
      | ok r1 =>
        rw [h1, except_bind_ok] at h
        obtain ⟨bs1, c1⟩ := r1
        have hc1 : c1 = c + 2 + 2 * n := ih (c + 2) (bs1, c1) h1
        cases h
        show c1 = c + 2 * (n + 1)
        omega

/-- Reading the header depends only on the dimensions and the 50 pixels of
its window. -/
theorem read_header_ext (img1 img2 : Image) (c : Nat)
    (hW : img2.width = img1.width) (hH : img2.height = img1.height)
    (hpx : ∀ i, i < c + 50 → img2.pixels.get? i = img1.pixels.get? i) :
    read_header img2 c = read_header img1 c := by
  simp only [read_header]
  rw [read_byte_ext img1 img2 c hW hH (fun i hi => hpx i (by omega))]
  cases h0 : read_byte_from_image img1 c with
  | error e => rw [except_bind_err, except_bind_err]
  | ok r0 =>
    rw [except_bind_ok, except_bind_ok]
    obtain ⟨b0, c0⟩ := r0
    have hc0 : c0 = c + 2 := read_byte_shape img1 c (b0, c0) h0
    subst hc0
    rw [read_bytes_ext 4 img1 img2 (c + 2) hW hH (fun i hi => hpx i (by omega))]
    cases h1 : read_bytes_from_image img1 (c + 2) 4 with
    | error e => rw [except_bind_err, except_bind_err]
    | ok r1 =>
      rw [except_bind_ok, except_bind_ok]
      obtain ⟨v1, c1⟩ := r1
      have hc1 : c1 = c + 2 + 2 * 4 := read_bytes_shape 4 img1 (c + 2) (v1, c1) h1
      subst hc1
      rw [read_bytes_ext 4 img1 img2 (c + 2 + 2 * 4) hW hH (fun i hi => hpx i (by omega))]
      cases h2 : read_bytes_from_image img1 (c + 2 + 2 * 4) 4 with
      | error e => rw [except_bind_err, except_bind_err]
      | ok r2 =>
        rw [except_bind_ok, except_bind_ok]
        obtain ⟨v2, c2⟩ := r2
        have hc2 : c2 = c + 2 + 2 * 4 + 2 * 4 :=
          read_bytes_shape 4 img1 (c + 2 + 2 * 4) (v2, c2) h2
        subst hc2
        rw [read_bytes_ext 16 img1 img2 (c + 2 + 2 * 4 + 2 * 4) hW hH
          (fun i hi => hpx i (by omega))]

theorem write_byte_shape (img : Image) (c b : Nat) (r : Image × Nat)
    (h : write_byte_to_image img c b = Except.ok r) : r.2 = c + 2 := by
  unfold write_byte_to_image at h
  cases h0 : get_pixel_position img c with
  | error e => rw [h0, except_bind_err] at h; cases h
  | ok pos0 =>
    rw [h0, except_bind_ok] at h
    cases h1 : getPixel img pos0.1 pos0.2 with
    | error e => rw [h1, except_bind_err] at h; cases h
    | ok p0 =>
      rw [h1, except_bind_ok] at h
      cases h2 : putPixel img pos0.1 pos0.2 (pixel_with_low_bits b p0) with
      | error e => rw [h2, except_bind_err] at h; cases h
      | ok img1 =>
        rw [h2, except_bind_ok] at h
        cases h3 : get_pixel_position img1 (c + 1) with
        | error e => rw [h3, except_bind_err] at h; cases h
        | ok pos1 =>
          rw [h3, except_bind_ok] at h
          cases h4 : getPixel img1 pos1.1 pos1.2 with
          | error e => rw [h4, except_bind_err] at h; cases h
          | ok p1 =>
            rw [h4, except_bind_ok] at h
            cases h5 : putPixel img1 pos1.1 pos1.2 (pixel_with_high_bits b p1) with
            | error e => rw [h5, except_bind_err] at h; cases h
            | ok img2 =>
              rw [h5, except_bind_ok] at h
              cases h
              rfl

theorem write_vec_shape (bytes : List Nat) (img : Image) (c : Nat) (r : Image × Nat)
    (h : write_byte_vector_to_image img c bytes = Except.ok r) :
    r.2 = c + 2 * bytes.length := by
  induction bytes generalizing img c r with
  | nil =>
    simp only [write_byte_vector_to_image] at h
    cases h
    show c = c + 2 * 0
    omega
  | cons b rest ih =>
    simp only [write_byte_vector_to_image] at h
    cases h0 : write_byte_to_image img c b with
    | error e => rw [h0, except_bind_err] at h; cases h
    | ok r0 =>
      rw [h0, except_bind_ok] at h
      obtain ⟨i1, c1⟩ := r0
      have hc1 : c1 = c + 2 := write_byte_shape img c b (i1, c1) h0
      subst hc1
      have := ih i1 (c + 2) r h
      rw [this, List.length_cons]
      omega

/-! Bridging the wrapping-cursor pipeline to the plain one below `2^32`. -/

theorem u32succ_eq (c : Nat) (h : c + 1 < 4294967296) : u32succ c = c + 1 :=
  Nat.mod_eq_of_lt h

theorem wb_u32_eq (img : Image) (c b : Nat) (h : c + 2 < 4294967296) :
    write_byte_to_image_u32 img c b = write_byte_to_image img c b := by
  unfold write_byte_to_image_u32 write_byte_to_image
  rw [u32succ_eq c (by omega), u32succ_eq (c + 1) (by omega)]

theorem rb_u32_eq (img : Image) (c : Nat) (h : c + 2 < 4294967296) :
    read_byte_from_image_u32 img c = read_byte_from_image img c := by
  unfold read_byte_from_image_u32 read_byte_from_image
  rw [u32succ_eq c (by omega), u32succ_eq (c + 1) (by omega)]

theorem wbv_u32_eq (bytes : List Nat) (img : Image) (c : Nat)
    (h : c + 2 * bytes.length < 4294967296) :
    write_byte_vector_to_image_u32 img c bytes = write_byte_vector_to_image img c bytes := by
  induction bytes generalizing img c with
  | nil => rfl
  | cons b rest ih =>
    rw [List.length_cons] at h
    simp only [write_byte_vector_to_image_u32, write_byte_vector_to_image]
    rw [wb_u32_eq img c b (by omega)]
    cases h0 : write_byte_to_image img c b with
    | error e => rw [except_bind_err, except_bind_err]
    | ok r =>
      rw [except_bind_ok, except_bind_ok]
      obtain ⟨i1, c1⟩ := r
      have hc1 : c1 = c + 2 := write_byte_shape img c b (i1, c1) h0
      subst hc1
      exact ih i1 (c + 2) (by omega)

theorem rbs_u32_eq (L : Nat) (img : Image) (c : Nat)
    (h : c + 2 * L < 4294967296) :
    read_bytes_from_image_u32 img c L = read_bytes_from_image img c L := by
  induction L generalizing c with
  | zero => rfl
  | succ n ih =>
    simp only [read_bytes_from_image_u32, read_bytes_from_image]
    rw [rb_u32_eq img c (by omega)]
    cases h0 : read_byte_from_image img c with
    | error e => rw [except_bind_err, except_bind_err]
    | ok r =>
      rw [except_bind_ok, except_bind_ok]
      obtain ⟨b0, c0⟩ := r
      have hc0 : c0 = c + 2 := read_byte_shape img c (b0, c0) h0
      subst hc0
      rw [ih (c + 2) (by omega)]

theorem write_header_u32_eq (img : Image) (data name : List Nat) (c : Nat)
    (h : c + 50 < 4294967296) :
    write_header_u32 img data name c = write_header img data name c := by
  simp only [write_header_u32, write_header]
  rw [wb_u32_eq img c 0 (by omega)]
  cases h0 : write_byte_to_image img c 0 with
  | error e => rw [except_bind_err, except_bind_err]
  | ok r0 =>
    rw [except_bind_ok, except_bind_ok]
    obtain ⟨i1, c1⟩ := r0
    have hc1 : c1 = c + 2 := write_byte_shape img c 0 (i1, c1) h0
    subst hc1
    rw [wbv_u32_eq _ i1 (c + 2) (by rw [convert_len]; omega)]
    cases h1 : write_byte_vector_to_image i1 (c + 2)
        (convert_u32_to_bytes (name.length % 4294967296)) with
    | error e => rw [except_bind_err, except_bind_err]
    | ok r1 =>
      rw [except_bind_ok, except_bind_ok]
      obtain ⟨i2, c2⟩ := r1
      have hc2 : c2 = c + 2 + 2 * 4 := by
        have := write_vec_shape _ i1 (c + 2) (i2, c2) h1
        rw [convert_len] at this
        exact this
      subst hc2
      rw [wbv_u32_eq _ i2 (c + 2 + 2 * 4) (by rw [convert_len]; omega)]
      cases h2 : write_byte_vector_to_image i2 (c + 2 + 2 * 4)
          (convert_u32_to_bytes (data.length % 4294967296)) with
      | error e => rw [except_bind_err, except_bind_err]
      | ok r2 =>
        rw [except_bind_ok, except_bind_ok]
        obtain ⟨i3, c3⟩ := r2
        have hc3 : c3 = c + 2 + 2 * 4 + 2 * 4 := by
          have := write_vec_shape _ i2 (c + 2 + 2 * 4) (i3, c3) h2
          rw [convert_len] at this
          exact this
        subst hc3
        rw [wbv_u32_eq _ i3 (c + 2 + 2 * 4 + 2 * 4)
          (by rw [List.length_replicate]; omega)]

theorem read_header_u32_eq (img : Image) (c : Nat) (h : c + 50 < 4294967296) :
    read_header_u32 img c = read_header img c := by
  simp only [read_header_u32, read_header]
  rw [rb_u32_eq img c (by omega)]
  cases h0 : read_byte_from_image img c with
  | error e => rw [except_bind_err, except_bind_err]
  | ok r0 =>
    rw [except_bind_ok, except_bind_ok]
    obtain ⟨b0, c0⟩ := r0
    have hc0 : c0 = c + 2 := read_byte_shape img c (b0, c0) h0
    subst hc0
    rw [rbs_u32_eq 4 img (c + 2) (by omega)]
    cases h1 : read_bytes_from_image img (c + 2) 4 with
    | error e => rw [except_bind_err, except_bind_err]
    | ok r1 =>
      rw [except_bind_ok, except_bind_ok]
      obtain ⟨v1, c1⟩ := r1
      have hc1 : c1 = c + 2 + 2 * 4 := read_bytes_shape 4 img (c + 2) (v1, c1) h1
      subst hc1
      rw [rbs_u32_eq 4 img (c + 2 + 2 * 4) (by omega)]
      cases h2 : read_bytes_from_image img (c + 2 + 2 * 4) 4 with
      | error e => rw [except_bind_err, except_bind_err]
      | ok r2 =>
        rw [except_bind_ok, except_bind_ok]
        obtain ⟨v2, c2⟩ := r2
        have hc2 : c2 = c + 2 + 2 * 4 + 2 * 4 :=
          read_bytes_shape 4 img (c + 2 + 2 * 4) (v2, c2) h2
        subst hc2
        rw [rbs_u32_eq 16 img (c + 2 + 2 * 4 + 2 * 4) (by omega)]

/-- At the exact cursor position where the second increment reaches `2^32`,
the wrapping write behaves like the plain one except that the returned
cursor wraps to 0. -/
theorem wb_u32_wrap_map (img : Image) (c b : Nat) (h2 : c + 2 = 4294967296) :
    write_byte_to_image_u32 img c b =
      Except.map (fun r => (r.1, 0)) (write_byte_to_image img c b) := by
  unfold write_byte_to_image_u32 write_byte_to_image
  rw [u32succ_eq c (by omega)]
  rw [show u32succ (c + 1) = 0 by unfold u32succ; omega]
  cases ha : get_pixel_position img c with
  | error e => rw [except_bind_err]; rfl
  | ok pos0 =>
    rw [except_bind_ok, except_bind_ok]
    cases hb : getPixel img pos0.1 pos0.2 with
    | error e => rw [except_bind_err]; rfl
    | ok p0 =>
      rw [except_bind_ok, except_bind_ok]
      cases hc : putPixel img pos0.1 pos0.2 (pixel_with_low_bits b p0) with
      | error e => rw [except_bind_err]; rfl
      | ok img1 =>
        rw [except_bind_ok, except_bind_ok]
        cases hd : get_pixel_position img1 (c + 1) with
        | error e => rw [except_bind_err]; rfl
        | ok pos1 =>
          rw [except_bind_ok, except_bind_ok]
          cases he : getPixel img1 pos1.1 pos1.2 with
          | error e => rw [except_bind_err]; rfl
          | ok p1 =>
            rw [except_bind_ok, except_bind_ok]
            cases hf : putPixel img1 pos1.1 pos1.2 (pixel_with_high_bits b p1) with
            | error e => rw [except_bind_err]; rfl
            | ok img2 => rw [except_bind_ok, except_bind_ok]; rfl

/-- Writing a concatenation is writing the pieces in sequence (wrapping
cursor). -/
theorem wbv_u32_append (l1 l2 : List Nat) (img : Image) (c : Nat) :
    write_byte_vector_to_image_u32 img c (l1 ++ l2) = (do
      let (img1, c1) ← write_byte_vector_to_image_u32 img c l1
      write_byte_vector_to_image_u32 img1 c1 l2) := by
  induction l1 generalizing img c with
  | nil => rfl
  | cons b t ih =>
    simp only [List.cons_append, write_byte_vector_to_image_u32]
    cases h0 : write_byte_to_image_u32 img c b with
    | error e => rw [except_bind_err, except_bind_err, except_bind_err]
    | ok r =>
      obtain ⟨i1, c1⟩ := r
      rw [except_bind_ok, except_bind_ok]
      exact ih i1 c1

theorem read_bytes_succ (img : Image) (c n : Nat) :
    read_bytes_from_image img c (n + 1) = (do
      let (byte, c1) ← read_byte_from_image img c
      let (rest, c2) ← read_bytes_from_image img c1 n
      Except.ok (byte :: rest, c2)) := rfl

/-- Splitting a successful byte read into two consecutive reads. -/
theorem read_bytes_split (L1 L2 : Nat) (img : Image) (c : Nat) (bs : List Nat)
    (cf : Nat) (h : read_bytes_from_image img c (L1 + L2) = Except.ok (bs, cf)) :
    read_bytes_from_image img c L1 = Except.ok (bs.take L1, c + 2 * L1) ∧
    read_bytes_from_image img (c + 2 * L1) L2 = Except.ok (bs.drop L1, cf) := by
  induction L1 generalizing c bs cf with
  | zero =>
    rw [Nat.zero_add] at h
    exact ⟨rfl, h⟩
  | succ n ih =>
    rw [Nat.succ_add, read_bytes_succ] at h
    cases h0 : read_byte_from_image img c with
    | error e => rw [h0, except_bind_err] at h; cases h
    | ok r0 =>
      rw [h0, except_bind_ok] at h
      obtain ⟨b0, c0⟩ := r0
      have hc0 : c0 = c + 2 := read_byte_shape img c (b0, c0) h0
      subst hc0
      have h' : (do
          let (rest, c2) ← read_bytes_from_image img (c + 2) (n + L2)
          (Except.ok (b0 :: rest, c2) : Except Err (List Nat × Nat))) =
          Except.ok (bs, cf) := h
      cases h1 : read_bytes_from_image img (c + 2) (n + L2) with
      | error e => rw [h1, except_bind_err] at h'; cases h'
      | ok r1 =>
        rw [h1, except_bind_ok] at h'
        obtain ⟨bs1, c1⟩ := r1
        cases h'
        obtain ⟨ih1, ih2⟩ := ih (c + 2) bs1 cf h1
        constructor
        · rw [read_bytes_succ, h0, except_bind_ok]
          show (do
              let (rest, c2) ← read_bytes_from_image img (c + 2) n
              (Except.ok (b0 :: rest, c2) : Except Err (List Nat × Nat))) =
            Except.ok (List.take (n + 1) (b0 :: bs1), c + 2 * (n + 1))
          rw [ih1, except_bind_ok, List.take_succ_cons,
            show c + 2 * (n + 1) = c + 2 + 2 * n by omega]
        · rw [show c + 2 * (n + 1) = c + 2 + 2 * n by omega, List.drop_succ_cons]
          exact ih2

/-- A successful one-byte read is a successful `read_byte_from_image`. -/
theorem read_bytes_one (img : Image) (c : Nat) (bs : List Nat) (cf : Nat)
    (h : read_bytes_from_image img c 1 = Except.ok (bs, cf)) :
    ∃ b, bs = [b] ∧ read_byte_from_image img c = Except.ok (b, cf) := by
  rw [show (1 : Nat) = 0 + 1 from rfl, read_bytes_succ] at h
  cases h0 : read_byte_from_image img c with
  | error e => rw [h0, except_bind_err] at h; cases h
  | ok r0 =>
    rw [h0, except_bind_ok] at h
    obtain ⟨b0, c0⟩ := r0
    have h' : (do
        let (rest, c2) ← read_bytes_from_image img c0 0
        (Except.ok (b0 :: rest, c2) : Except Err (List Nat × Nat))) =
        Except.ok (bs, cf) := h
    rw [show read_bytes_from_image img c0 0 = Except.ok ([], c0) from rfl,
      except_bind_ok] at h'
    cases h'
    exact ⟨b0, rfl, rfl⟩

/-- Full encode-then-decode composition over the release-faithful wrapping
`u32` cursor: with enough pixels, 32-bit representable lengths, byte-valued
contents, a UTF-8-valid name, and a total byte stream that stays inside the
`u32` cursor's range (so the cursor never wraps), decoding the encoded image
recovers name and data exactly. -/
theorem encode_decode_roundtrip (img : Image) (data name : List Nat)
    (hwf : img.wf)
    (hname : name.length < 4294967296) (hdata : data.length < 4294967296)
    (hnb : ∀ b ∈ name, b < 256) (hdb : ∀ b ∈ data, b < 256)
    (hutf : utf8Valid name = true)
    (hcap : 50 + 2 * name.length + 2 * data.length < 4294967296)
    (hfits : 50 + 2 * name.length + 2 * data.length ≤ img.width * img.height) :
    ∃ imgF cF, encode_data_u32 img data name = Except.ok (imgF, cF) ∧
      decode_data_u32 imgF = Except.ok { name := name, data := data } := by
  have hWH : 0 < img.width * img.height := by omega
  have hw : 0 < img.width := by
    rcases Nat.eq_zero_or_pos img.width with h | h
    · rw [h, Nat.zero_mul] at hWH; omega
    · exact h
  -- header: cursor 0 → 50
  obtain ⟨img1, hwh, hW1, hH1, hL1, hlow1, hhigh1, hrh1⟩ :=
    write_header_props img data name 0 hwf hw (by omega)
  have hwf1 : img.wf → img1.wf := fun h => wf_transfer img img1 hW1 hH1 hL1 h
  have hwf1' : img1.wf := hwf1 hwf
  have hw1 : 0 < img1.width := by rw [hW1]; exact hw
  -- name bytes: cursor 50 → 50 + 2n
  obtain ⟨img2, hwvN, hW2, hH2, hL2, hlow2, hhigh2, hreadN⟩ :=
    write_vec_props name img1 (0 + 50) hwf1' hw1 (by rw [hW1, hH1]; omega)
  have hwf2 : img2.wf := wf_transfer img1 img2 hW2 hH2 hL2 hwf1'
  have hw2 : 0 < img2.width := by rw [hW2]; exact hw1
  -- data bytes: cursor 50 + 2n → 50 + 2n + 2d
  obtain ⟨imgF, hwvD, hWF, hHF, hLF, hlowF, hhighF, hreadD⟩ :=
    write_vec_props data img2 (0 + 50 + 2 * name.length) hwf2 hw2
      (by rw [hW2, hW1, hH2, hH1]; omega)
  refine ⟨imgF, 0 + 50 + 2 * name.length + 2 * data.length, ?_, ?_⟩
  · -- the encode computation
    simp only [encode_data_u32]
    rw [write_header_u32_eq img data name 0 (by omega), hwh, except_bind_ok]
    show (do
      let (img2, c2) ← write_byte_vector_to_image_u32 img1 (0 + 50) name
      write_byte_vector_to_image_u32 img2 c2 data) =
      Except.ok (imgF, 0 + 50 + 2 * name.length + 2 * data.length)
    rw [wbv_u32_eq name img1 (0 + 50) (by omega), hwvN, except_bind_ok]
    show write_byte_vector_to_image_u32 img2 (0 + 50 + 2 * name.length) data =
      Except.ok (imgF, 0 + 50 + 2 * name.length + 2 * data.length)
    rw [wbv_u32_eq data img2 (0 + 50 + 2 * name.length) (by omega)]
    exact hwvD
  · -- the decode computation
    have hWF1 : imgF.width = img1.width := by rw [hWF, hW2]
    have hHF1 : imgF.height = img1.height := by rw [hHF, hH2]
    have hFto1 : ∀ i, i < 0 + 50 → imgF.pixels.get? i = img1.pixels.get? i := by
      intro i hi
      rw [hlowF i (by omega)]
      exact hlow2 i (by omega)
    have hrhF : read_header imgF 0 = Except.ok
        ({ name_length := name.length % 4294967296,
           data_length := data.length % 4294967296 }, 0 + 50) := by
      rw [read_header_ext img1 imgF 0 hWF1 hHF1 (fun i hi => hFto1 i (by omega))]
      exact hrh1
    rw [Nat.mod_eq_of_lt hname, Nat.mod_eq_of_lt hdata] at hrhF
    have hreadNF : read_bytes_from_image imgF (0 + 50) name.length =
        Except.ok (name.map (fun b => b % 256), 0 + 50 + 2 * name.length) := by
      rw [read_bytes_ext name.length img2 imgF (0 + 50) (by rw [hWF]) (by rw [hHF])
        (fun i hi => hlowF i (by omega))]
      exact hreadN
    rw [map_mod_of_lt name hnb] at hreadNF
    rw [map_mod_of_lt data hdb] at hreadD
    simp only [decode_data_u32]
    rw [read_header_u32_eq imgF 0 (by omega), hrhF, except_bind_ok]
    show (do
      let (file_name_bytes, c2) ← read_bytes_from_image_u32 imgF (0 + 50) name.length
      let (data_bytes, _c3) ← read_bytes_from_image_u32 imgF c2 data.length
      let nm ← construct_string_from_byte_vector file_name_bytes
      Except.ok (FileData.mk nm data_bytes)) =
      Except.ok (FileData.mk name data)
    rw [rbs_u32_eq name.length imgF (0 + 50) (by omega), hreadNF, except_bind_ok]
    show (do
      let (data_bytes, _c3) ←
        read_bytes_from_image_u32 imgF (0 + 50 + 2 * name.length) data.length
      let nm ← construct_string_from_byte_vector name
      Except.ok (FileData.mk nm data_bytes)) =
      Except.ok (FileData.mk name data)
    rw [rbs_u32_eq data.length imgF (0 + 50 + 2 * name.length) (by omega), hreadD,
      except_bind_ok]
    show (do
      let nm ← construct_string_from_byte_vector name
      Except.ok (FileData.mk nm data)) = Except.ok (FileData.mk name data)
    unfold construct_string_from_byte_vector
    rw [if_pos hutf, except_bind_ok]

/-! Error classification: the write pipeline can only abort with a bounds
panic or a division-by-zero panic, never with a capacity or encoding error. -/

theorem gpp_err_class (img : Image) (c : Nat) (e : Err)
    (h : get_pixel_position img c = Except.error e) :
    e = Err.bounds ∨ e = Err.divByZero := by
  unfold get_pixel_position at h
  by_cases hw : img.width = 0
  · rw [if_pos hw] at h; cases h; right; rfl
  · rw [if_neg hw] at h
    by_cases hcond : c % img.width > img.width ∨ c / img.width > img.height
    · rw [if_pos hcond] at h; cases h; left; rfl
    · rw [if_neg hcond] at h; cases h

theorem getPixel_err_class (img : Image) (x y : Nat) (e : Err)
    (h : getPixel img x y = Except.error e) : e = Err.bounds := by
  unfold getPixel at h
  by_cases hg : x < img.width ∧ y < img.height
  · rw [if_pos hg] at h
    cases hm : img.pixels.get? (y * img.width + x) with
    | some p => rw [hm] at h; cases h
    | none => rw [hm] at h; cases h; rfl
  · rw [if_neg hg] at h; cases h; rfl

theorem putPixel_err_class (img : Image) (x y : Nat) (p : Rgba) (e : Err)
    (h : putPixel img x y p = Except.error e) : e = Err.bounds := by
  unfold putPixel at h
  by_cases hg : x < img.width ∧ y < img.height
  · rw [if_pos hg] at h; cases h
  · rw [if_neg hg] at h; cases h; rfl

theorem write_byte_err_class (img : Image) (c b : Nat) (e : Err)
    (h : write_byte_to_image img c b = Except.error e) :
    e = Err.bounds ∨ e = Err.divByZero := by
  unfold write_byte_to_image at h
  cases h0 : get_pixel_position img c with
  | error e0 =>
    rw [h0, except_bind_err] at h; cases h
    exact gpp_err_class img c _ h0
  | ok pos0 =>
    rw [h0, except_bind_ok] at h
    cases h1 : getPixel img pos0.1 pos0.2 with
    | error e1 =>
      rw [h1, except_bind_err] at h; cases h
      exact Or.inl (getPixel_err_class _ _ _ _ h1)
    | ok p0 =>
      rw [h1, except_bind_ok] at h
      cases h2 : putPixel img pos0.1 pos0.2 (pixel_with_low_bits b p0) with
      | error e2 =>
        rw [h2, except_bind_err] at h; cases h
        exact Or.inl (putPixel_err_class _ _ _ _ _ h2)
      | ok img1 =>
        rw [h2, except_bind_ok] at h
        cases h3 : get_pixel_position img1 (c + 1) with
        | error e3 =>
          rw [h3, except_bind_err] at h; cases h
          exact gpp_err_class _ _ _ h3
        | ok pos1 =>
          rw [h3, except_bind_ok] at h
          cases h4 : getPixel img1 pos1.1 pos1.2 with
          | error e4 =>
            rw [h4, except_bind_err] at h; cases h
            exact Or.inl (getPixel_err_class _ _ _ _ h4)
          | ok p1 =>
            rw [h4, except_bind_ok] at h
            cases h5 : putPixel img1 pos1.1 pos1.2 (pixel_with_high_bits b p1) with
            | error e5 =>
              rw [h5, except_bind_err] at h; cases h
              exact Or.inl (putPixel_err_class _ _ _ _ _ h5)
            | ok img2 => rw [h5, except_bind_ok] at h; cases h

theorem write_vec_err_class (bytes : List Nat) (img : Image) (c : Nat) (e : Err)
    (h : write_byte_vector_to_image img c bytes = Except.error e) :
    e = Err.bounds ∨ e = Err.divByZero := by
  induction bytes generalizing img c with
  | nil => simp only [write_byte_vector_to_image] at h; cases h
  | cons b rest ih =>
    simp only [write_byte_vector_to_image] at h
    cases h0 : write_byte_to_image img c b with
    | error e0 =>
      rw [h0, except_bind_err] at h; cases h
      exact write_byte_err_class _ _ _ _ h0
    | ok r =>
      rw [h0, except_bind_ok] at h
      obtain ⟨img1, c1⟩ := r
      exact ih img1 c1 h

theorem write_header_err_class (img : Image) (data name : List Nat) (c : Nat) (e : Err)
    (h : write_header img data name c = Except.error e) :
    e = Err.bounds ∨ e = Err.divByZero := by
  simp only [write_header] at h
  cases h0 : write_byte_to_image img c 0 with
  | error e0 =>
    rw [h0, except_bind_err] at h; cases h
    exact write_byte_err_class _ _ _ _ h0
  | ok r0 =>
    rw [h0, except_bind_ok] at h
    obtain ⟨img1, c1⟩ := r0
    cases h1 : write_byte_vector_to_image img1 c1
        (convert_u32_to_bytes (name.length % 4294967296)) with
    | error e1 =>
      rw [h1, except_bind_err] at h; cases h
      exact write_vec_err_class _ _ _ _ h1
    | ok r1 =>
      rw [h1, except_bind_ok] at h
      obtain ⟨img2, c2⟩ := r1
      cases h2 : write_byte_vector_to_image img2 c2
          (convert_u32_to_bytes (data.length % 4294967296)) with
      | error e2 =>
        rw [h2, except_bind_err] at h; cases h
        exact write_vec_err_class _ _ _ _ h2
      | ok r2 =>
        rw [h2, except_bind_ok] at h
        obtain ⟨img3, c3⟩ := r2
        exact write_vec_err_class _ _ _ _ h

theorem encode_data_err_class (img : Image) (data name : List Nat) (e : Err)
    (h : encode_data img data name = Except.error e) :
    e = Err.bounds ∨ e = Err.divByZero := by
  simp only [encode_data] at h
  cases h0 : write_header img data name 0 with
  | error e0 =>
    rw [h0, except_bind_err] at h; cases h
    exact write_header_err_class _ _ _ _ _ h0
  | ok r0 =>
    rw [h0, except_bind_ok] at h
    obtain ⟨img1, c1⟩ := r0
    cases h1 : write_byte_vector_to_image img1 c1 name with
    | error e1 =>
      rw [h1, except_bind_err] at h; cases h
      exact write_vec_err_class _ _ _ _ h1
    | ok r1 =>
      rw [h1, except_bind_ok] at h
      obtain ⟨img2, c2⟩ := r1
      exact write_vec_err_class _ _ _ _ h

/-! Bits above the LSB of a channel are preserved. -/

set_option maxRecDepth 4000 in
theorem or_one_shift : ∀ ch : Nat, ch < 256 → (ch ||| 1) >>> 1 = ch >>> 1 := by decide

set_option maxRecDepth 4000 in
theorem and_254_shift : ∀ ch : Nat, ch < 256 → (ch &&& 254) >>> 1 = ch >>> 1 := by decide

theorem shift_one_byte_with (ch x : Nat) (hch : ch < 256) :
    byte_with_x_last_bit ch x >>> 1 = ch >>> 1 := by
  unfold byte_with_x_last_bit
  by_cases hx : x = 1
  · rw [if_pos hx]; exact or_one_shift ch hch
  · rw [if_neg hx]; exact and_254_shift ch hch

instance {ε α : Type} [DecidableEq ε] [DecidableEq α] : DecidableEq (Except ε α) :=
  fun x y =>
    match x, y with
    | Except.ok a, Except.ok b =>
      if h : a = b then Decidable.isTrue (by rw [h])
      else Decidable.isFalse (by intro hc; cases hc; exact h rfl)
    | Except.error e, Except.error f =>
      if h : e = f then Decidable.isTrue (by rw [h])
      else Decidable.isFalse (by intro hc; cases hc; exact h rfl)
    | Except.ok _, Except.error _ => Decidable.isFalse (by intro hc; cases hc)
    | Except.error _, Except.ok _ => Decidable.isFalse (by intro hc; cases hc)

/-- A 45×44 image whose channels are all 1: 1980 pixels, reported capacity
980 bytes, but room for only (1980 − 50) / 2 = 965 payload bytes after the
header. -/
def c9_img : Image :=
  { width := 45, height := 44, pixels := List.replicate 1980 { r := 1, g := 1, b := 1, a := 1 } }

set_option maxRecDepth 8000 in
theorem c9_img_wf : c9_img.wf := by
  simp [Image.wf, c9_img]

/-! The claims. -/

/-- C1 (amended): for every image with enough pixels and every payload
consisting of a UTF-8-valid name byte sequence and a data byte sequence,
each with length representable in 32 bits (and byte values fitting in `u8`),
and whose total encoded stream of 25 + |name| + |data| bytes occupies fewer
than `2^32` pixels — so the `u32` pixel cursor never wraps — running
`decode_data` on the image produced by `encode_data` recovers the name and
the data exactly, byte for byte, for both fields.  Stated over the
release-faithful wrapping-cursor pipeline. -/
theorem claim_C1_roundtrip (img : Image) (data name : List Nat)
    (hwf : img.wf)
    (hname : name.length < 4294967296) (hdata : data.length < 4294967296)
    (hnb : ∀ b ∈ name, b < 256) (hdb : ∀ b ∈ data, b < 256)
    (hutf : utf8Valid name = true)
    (hcap : 50 + 2 * name.length + 2 * data.length < 4294967296)
    (hfits : 50 + 2 * name.length + 2 * data.length ≤ img.width * img.height) :
    ∃ imgF cF, encode_data_u32 img data name = Except.ok (imgF, cF) ∧
      decode_data_u32 imgF = Except.ok { name := name, data := data } :=
  encode_decode_roundtrip img data name hwf hname hdata hnb hdb hutf hcap hfits

/-- Concrete instance of C1: an 8×8 image, name "a" (byte 97), data [1, 2]. -/
theorem claim_C1_roundtrip_witness :
    ∃ imgF cF,
      encode_data_u32
        { width := 8, height := 8, pixels := List.replicate 64 { r := 9, g := 9, b := 9, a := 9 } }
        [1, 2] [97] = Except.ok (imgF, cF) ∧
      decode_data_u32 imgF = Except.ok { name := [97], data := [1, 2] } :=
  claim_C1_roundtrip _ [1, 2] [97] (by unfold Image.wf; decide) (by decide) (by decide)
    (by decide) (by decide) (by decide) (by decide) (by decide)

set_option maxRecDepth 2000 in
/-- C1 counterexample: on the 65538×65536 image, with a one-byte name and
2^31 data bytes, every hypothesis of the original claim holds — lengths
representable in 32 bits, `u8` byte values, valid UTF-8 name, and enough
pixels (4295098368 ≥ 4294967348) — yet the encoded byte stream needs
52 + 2^32 pixels, the `u32` cursor wraps at 2^32, the final 26 data bytes
overwrite the header with zeros, and decoding returns an empty name and
empty data instead of the payload. -/
theorem claim_C1_counterexample :
    ([97] : List Nat).length < 4294967296 ∧
    (List.replicate 2147483648 (0 : Nat)).length < 4294967296 ∧
    (∀ b ∈ ([97] : List Nat), b < 256) ∧
    (∀ b ∈ List.replicate 2147483648 (0 : Nat), b < 256) ∧
    utf8Valid [97] = true ∧
    cex_img.wf ∧
    50 + 2 * ([97] : List Nat).length + 2 * (List.replicate 2147483648 (0 : Nat)).length ≤
      cex_img.width * cex_img.height ∧
    ∃ imgF cF, encode_data_u32 cex_img (List.replicate 2147483648 0) [97] =
        Except.ok (imgF, cF) ∧
      decode_data_u32 imgF = Except.ok { name := [], data := [] } ∧
      ({ name := [], data := [] } : FileData) ≠
        { name := [97], data := List.replicate 2147483648 0 } := by
  have hw : 0 < cex_img.width := by decide
  have hP : cex_img.width * cex_img.height = 4295098368 := by decide
  have hwfC : cex_img.wf := by
    show cex_img.pixels.length = cex_img.width * cex_img.height
    rw [show cex_img.pixels =
        List.replicate 4295098368 { r := 1, g := 1, b := 1, a := 1 } from rfl,
      List.length_replicate, hP]
  -- header: cursor 0 → 50
  obtain ⟨img1, hwh, hW1, hH1, hL1, hlow1, hhigh1, hrh1⟩ :=
    write_header_props cex_img (List.replicate 2147483648 0) [97] 0 hwfC hw
      (by rw [hP]; omega)
  have hwh' : write_header cex_img (List.replicate 2147483648 0) [97] 0 =
      Except.ok (img1, 50) := hwh
  have hwf1 : img1.wf := wf_transfer _ _ hW1 hH1 hL1 hwfC
  have hw1 : 0 < img1.width := by rw [hW1]; exact hw
  -- name byte: cursor 50 → 52
  obtain ⟨img2, hwvN, hW2, hH2, hL2, hlow2, hhigh2, hreadN⟩ :=
    write_vec_props [97] img1 50 hwf1 hw1 (by rw [hW1, hH1, hP]; decide)
  have hwvN' : write_byte_vector_to_image img1 50 [97] = Except.ok (img2, 52) := hwvN
  have hwf2 : img2.wf := wf_transfer _ _ hW2 hH2 hL2 hwf1
  have hw2 : 0 < img2.width := by rw [hW2]; exact hw1
  -- first data chunk: 2147483621 zero bytes, cursor 52 → 4294967294
  obtain ⟨img3, hwv3, hW3, hH3, hL3, hlow3, hhigh3, hread3⟩ :=
    write_vec_props (List.replicate 2147483621 0) img2 52 hwf2 hw2
      (by rw [List.length_replicate, hW2, hW1, hH2, hH1, hP]; omega)
  rw [List.length_replicate,
    show (52 + 2 * 2147483621 : Nat) = 4294967294 by norm_num] at hwv3
  have hwf3 : img3.wf := wf_transfer _ _ hW3 hH3 hL3 hwf2
  have hw3 : 0 < img3.width := by rw [hW3]; exact hw2
  -- the wrapping byte: cursor 4294967294 → 0
  obtain ⟨img4, p4, q4, hwb4, hW4, hH4, hL4, -, -, -, -, -⟩ :=
    write_byte_props img3 4294967294 0 hwf3 hw3
      (by rw [hW3, hW2, hW1, hH3, hH2, hH1, hP]; omega)
  have hwb4u : write_byte_to_image_u32 img3 4294967294 0 = Except.ok (img4, 0) := by
    rw [wb_u32_wrap_map img3 4294967294 0 (by norm_num), hwb4]
    rfl
  have hwf4 : img4.wf := wf_transfer _ _ hW4 hH4 hL4 hwf3
  have hw4 : 0 < img4.width := by rw [hW4]; exact hw3
  -- last 26 data bytes: overwrite pixels 0..51 (the header and name)
  obtain ⟨imgF, hwvF, hWF, hHF, hLF, hlowF, hhighF, hreadF⟩ :=
    write_vec_props (List.replicate 26 0) img4 0 hwf4 hw4
      (by rw [List.length_replicate, hW4, hW3, hW2, hW1, hH4, hH3, hH2, hH1, hP]; omega)
  rw [List.length_replicate, show (0 + 2 * 26 : Nat) = 52 by norm_num] at hwvF hreadF
  have hmap26 : (List.replicate 26 (0 : Nat)).map (fun b => b % 256) =
      List.replicate 26 0 := by
    rw [List.map_replicate]
  rw [hmap26] at hreadF
  -- decompose the 26 zero bytes read back into the header fields
  obtain ⟨hr1, hr25⟩ := read_bytes_split 1 25 imgF 0 (List.replicate 26 0) 52 hreadF
  have hr1' : read_bytes_from_image imgF 0 1 = Except.ok ([0], 2) := hr1
  have hr25' : read_bytes_from_image imgF 2 25 =
      Except.ok (List.replicate 25 0, 52) := hr25
  obtain ⟨b0, hb0eq, hrb0⟩ := read_bytes_one imgF 0 [0] 2 hr1'
  have hb0 : b0 = 0 := ((List.cons.inj hb0eq).1).symm
  subst hb0
  obtain ⟨hr4a, hr21⟩ := read_bytes_split 4 21 imgF 2 (List.replicate 25 0) 52 hr25'
  have hr4a' : read_bytes_from_image imgF 2 4 = Except.ok ([0, 0, 0, 0], 10) := hr4a
  have hr21' : read_bytes_from_image imgF 10 21 =
      Except.ok (List.replicate 21 0, 52) := hr21
  obtain ⟨hr4b, hr17⟩ := read_bytes_split 4 17 imgF 10 (List.replicate 21 0) 52 hr21'
  have hr4b' : read_bytes_from_image imgF 10 4 = Except.ok ([0, 0, 0, 0], 18) := hr4b
  have hr17' : read_bytes_from_image imgF 18 17 =
      Except.ok (List.replicate 17 0, 52) := hr17
  obtain ⟨hr16, -⟩ := read_bytes_split 16 1 imgF 18 (List.replicate 17 0) 52 hr17'
  have hr16' : read_bytes_from_image imgF 18 16 =
      Except.ok (List.replicate 16 0, 50) := hr16
  have hrhF : read_header imgF 0 =
      Except.ok ({ name_length := 0, data_length := 0 }, 50) := by
    simp only [read_header]
    rw [hrb0, except_bind_ok]
    show (do
      let (name_length_vec, c2) ← read_bytes_from_image imgF 2 4
      let (data_length_vec, c3) ← read_bytes_from_image imgF c2 4
      let (_salt, c4) ← read_bytes_from_image imgF c3 16
      let name_length ← convert_byte_vector_to_u32 name_length_vec
      let data_length ← convert_byte_vector_to_u32 data_length_vec
      Except.ok (Header.mk name_length data_length, c4)) =
      Except.ok (Header.mk 0 0, 50)
    rw [hr4a', except_bind_ok]
    show (do
      let (data_length_vec, c3) ← read_bytes_from_image imgF 10 4
      let (_salt, c4) ← read_bytes_from_image imgF c3 16
      let name_length ← convert_byte_vector_to_u32 [0, 0, 0, 0]
      let data_length ← convert_byte_vector_to_u32 data_length_vec
      Except.ok (Header.mk name_length data_length, c4)) =
      Except.ok (Header.mk 0 0, 50)
    rw [hr4b', except_bind_ok]
    show (do
      let (_salt, c4) ← read_bytes_from_image imgF 18 16
      let name_length ← convert_byte_vector_to_u32 [0, 0, 0, 0]
      let data_length ← convert_byte_vector_to_u32 [0, 0, 0, 0]
      Except.ok (Header.mk name_length data_length, c4)) =
      Except.ok (Header.mk 0 0, 50)
    rw [hr16', except_bind_ok]
    show (do
      let name_length ← convert_byte_vector_to_u32 [0, 0, 0, 0]
      let data_length ← convert_byte_vector_to_u32 [0, 0, 0, 0]
      Except.ok (Header.mk name_length data_length, 50)) =
      Except.ok (Header.mk 0 0, 50)
    rw [show convert_byte_vector_to_u32 [0, 0, 0, 0] = Except.ok 0 from rfl,
      except_bind_ok, except_bind_ok]
  refine ⟨by decide, by rw [List.length_replicate]; omega, by decide, ?_, by decide,
    hwfC, by rw [List.length_replicate, hP]; decide, imgF, 52, ?_, ?_, ?_⟩
  · intro b hb
    rw [List.eq_of_mem_replicate hb]
    omega
  · -- the encode computation, with the cursor wrapping mid-stream
    have h27 : List.replicate 27 (0 : Nat) = 0 :: List.replicate 26 0 := rfl
    have hsplit : List.replicate 2147483648 (0 : Nat) =
        List.replicate 2147483621 0 ++ (0 :: List.replicate 26 0) := by
      rw [show (2147483648 : Nat) = 2147483621 + 27 by norm_num, List.replicate_add, h27]
    simp only [encode_data_u32]
    rw [write_header_u32_eq cex_img (List.replicate 2147483648 0) [97] 0 (by omega),
      hwh', except_bind_ok]
    show (do
      let (i2, c2) ← write_byte_vector_to_image_u32 img1 50 [97]
      write_byte_vector_to_image_u32 i2 c2 (List.replicate 2147483648 0)) =
      Except.ok (imgF, 52)
    rw [wbv_u32_eq [97] img1 50 (by decide), hwvN', except_bind_ok]
    show write_byte_vector_to_image_u32 img2 52 (List.replicate 2147483648 0) =
      Except.ok (imgF, 52)
    rw [hsplit, wbv_u32_append]
    rw [wbv_u32_eq (List.replicate 2147483621 0) img2 52
      (by rw [List.length_replicate]; omega), hwv3, except_bind_ok]
    show write_byte_vector_to_image_u32 img3 4294967294 (0 :: List.replicate 26 0) =
      Except.ok (imgF, 52)
    simp only [write_byte_vector_to_image_u32]
    rw [hwb4u, except_bind_ok]
    show write_byte_vector_to_image_u32 img4 0 (List.replicate 26 0) =
      Except.ok (imgF, 52)
    rw [wbv_u32_eq (List.replicate 26 0) img4 0 (by rw [List.length_replicate]; omega)]
    exact hwvF
  · -- the decode computation: the overwritten header declares empty fields
    simp only [decode_data_u32]
    rw [read_header_u32_eq imgF 0 (by omega), hrhF, except_bind_ok]
    show (do
      let (file_name_bytes, c2) ← read_bytes_from_image_u32 imgF 50 0
      let (data_bytes, _c3) ← read_bytes_from_image_u32 imgF c2 0
      let nm ← construct_string_from_byte_vector file_name_bytes
      Except.ok (FileData.mk nm data_bytes)) = Except.ok (FileData.mk [] [])
    rw [show read_bytes_from_image_u32 imgF 50 0 = Except.ok ([], 50) from rfl,
      except_bind_ok]
    show (do
      let (data_bytes, _c3) ← read_bytes_from_image_u32 imgF 50 0
      let nm ← construct_string_from_byte_vector []
      Except.ok (FileData.mk nm data_bytes)) = Except.ok (FileData.mk [] [])
    rw [show read_bytes_from_image_u32 imgF 50 0 = Except.ok ([], 50) from rfl,
      except_bind_ok]
    show (do
      let nm ← construct_string_from_byte_vector []
      Except.ok (FileData.mk nm [])) = Except.ok (FileData.mk [] [])
    rw [show construct_string_from_byte_vector [] = Except.ok [] from rfl,
      except_bind_ok]
  · intro hcon
    injection hcon with h1 h2
    exact List.noConfusion h1

/-- C2: for every pair of lengths representable in 32 bits and every image
large enough, writing a header with `write_header` at cursor 0 and reading
it back with `read_header` at cursor 0 yields a `Header` whose
`name_length` and `data_length` equal the two lengths, the four-byte fields
being reassembled big-endian by `convert_byte_vector_to_u32`. -/
theorem claim_C2_header_roundtrip (img : Image) (data name : List Nat)
    (hwf : img.wf)
    (hname : name.length < 4294967296) (hdata : data.length < 4294967296)
    (hc : 50 ≤ img.width * img.height) :
    ∃ img1, write_header img data name 0 = Except.ok (img1, 50) ∧
      read_header img1 0 =
        Except.ok ({ name_length := name.length, data_length := data.length }, 50) := by
  have hWH : 0 < img.width * img.height := by omega
  have hw : 0 < img.width := by
    rcases Nat.eq_zero_or_pos img.width with h | h
    · rw [h, Nat.zero_mul] at hWH; omega
    · exact h
  obtain ⟨img1, hwh, -, -, -, -, -, hrh⟩ :=
    write_header_props img data name 0 hwf hw (by omega)
  rw [Nat.zero_add] at hwh hrh
  rw [Nat.mod_eq_of_lt hname, Nat.mod_eq_of_lt hdata] at hrh
  exact ⟨img1, hwh, hrh⟩

/-- Concrete instance of C2: a 10×10 image, name length 2, data length 3. -/
theorem claim_C2_header_roundtrip_witness :
    ∃ img1,
      write_header
        { width := 10, height := 10, pixels := List.replicate 100 { r := 3, g := 5, b := 7, a := 9 } }
        [1, 2, 3] [97, 98] 0 = Except.ok (img1, 50) ∧
      read_header img1 0 = Except.ok ({ name_length := 2, data_length := 3 }, 50) :=
  claim_C2_header_roundtrip _ [1, 2, 3] [97, 98] (by unfold Image.wf; decide) (by decide)
    (by decide) (by decide)

/-- C3: for every image, in-bounds cursor with two pixels remaining, and
byte value, `write_byte_to_image` changes at most the least-significant bit
of each of the four channels of the two pixels it touches — every bit above
bit 0 is preserved — and every other pixel is left completely unchanged. -/
theorem claim_C3_frame_effect (img : Image) (c byte : Nat) (hwf : img.wf)
    (hok : img.channelsOk) (hc : c + 2 ≤ img.width * img.height) :
    ∃ img', write_byte_to_image img c byte = Except.ok (img', c + 2) ∧
      (∀ i, i ≠ c → i ≠ c + 1 → img'.pixels.get? i = img.pixels.get? i) ∧
      (∀ p p', img.pixels.get? c = some p → img'.pixels.get? c = some p' →
        p'.r >>> 1 = p.r >>> 1 ∧ p'.g >>> 1 = p.g >>> 1 ∧
        p'.b >>> 1 = p.b >>> 1 ∧ p'.a >>> 1 = p.a >>> 1) ∧
      (∀ p p', img.pixels.get? (c + 1) = some p → img'.pixels.get? (c + 1) = some p' →
        p'.r >>> 1 = p.r >>> 1 ∧ p'.g >>> 1 = p.g >>> 1 ∧
        p'.b >>> 1 = p.b >>> 1 ∧ p'.a >>> 1 = p.a >>> 1) := by
  have hWH : 0 < img.width * img.height := by omega
  have hw : 0 < img.width := by
    rcases Nat.eq_zero_or_pos img.width with h | h
    · rw [h, Nat.zero_mul] at hWH; omega
    · exact h
  obtain ⟨img', p, q, hwb, hW, hH, hL, hp, hq, hpc, hpc1, hpres⟩ :=
    write_byte_props img c byte hwf hw hc
  refine ⟨img', hwb, hpres, ?_, ?_⟩
  · intro pu p' hpu hp'
    rw [hp] at hpu
    have hep : pu = p := (Option.some.inj hpu).symm
    subst hep
    rw [hpc] at hp'
    have hep' : p' = pixel_with_low_bits byte pu := (Option.some.inj hp').symm
    subst hep'
    obtain ⟨hr, hg, hb, ha⟩ := hok pu (List.get?_mem hp)
    exact ⟨shift_one_byte_with pu.r _ hr, shift_one_byte_with pu.g _ hg,
      shift_one_byte_with pu.b _ hb, shift_one_byte_with pu.a _ ha⟩
  · intro qu q' hqu hq'
    rw [hq] at hqu
    have heq : qu = q := (Option.some.inj hqu).symm
    subst heq
    rw [hpc1] at hq'
    have heq' : q' = pixel_with_high_bits byte qu := (Option.some.inj hq').symm
    subst heq'
    obtain ⟨hr, hg, hb, ha⟩ := hok qu (List.get?_mem hq)
    exact ⟨shift_one_byte_with qu.r _ hr, shift_one_byte_with qu.g _ hg,
      shift_one_byte_with qu.b _ hb, shift_one_byte_with qu.a _ ha⟩

/-- Concrete instance of C3: a 2×1 image, cursor 0, byte 170. -/
theorem claim_C3_frame_effect_witness :
    ∃ img', write_byte_to_image
      { width := 2, height := 1, pixels := [{ r := 255, g := 254, b := 7, a := 8 },
        { r := 16, g := 32, b := 64, a := 128 }] } 0 170 = Except.ok (img', 0 + 2) ∧
      (∀ i, i ≠ 0 → i ≠ 0 + 1 →
        img'.pixels.get? i =
          ({ width := 2, height := 1, pixels := [{ r := 255, g := 254, b := 7, a := 8 },
            { r := 16, g := 32, b := 64, a := 128 }] } : Image).pixels.get? i) ∧
      (∀ p p', ({ width := 2, height := 1, pixels := [{ r := 255, g := 254, b := 7, a := 8 },
          { r := 16, g := 32, b := 64, a := 128 }] } : Image).pixels.get? 0 = some p →
        img'.pixels.get? 0 = some p' →
        p'.r >>> 1 = p.r >>> 1 ∧ p'.g >>> 1 = p.g >>> 1 ∧
        p'.b >>> 1 = p.b >>> 1 ∧ p'.a >>> 1 = p.a >>> 1) ∧
      (∀ p p', ({ width := 2, height := 1, pixels := [{ r := 255, g := 254, b := 7, a := 8 },
          { r := 16, g := 32, b := 64, a := 128 }] } : Image).pixels.get? (0 + 1) = some p →
        img'.pixels.get? (0 + 1) = some p' →
        p'.r >>> 1 = p.r >>> 1 ∧ p'.g >>> 1 = p.g >>> 1 ∧
        p'.b >>> 1 = p.b >>> 1 ∧ p'.a >>> 1 = p.a >>> 1) :=
  claim_C3_frame_effect _ 0 170 (by unfold Image.wf; decide)
    (by unfold Image.channelsOk; decide) (by decide)

/-- C7: for every image, cursor with at least two pixels remaining, and each
of the 256 byte values, writing a byte advances the cursor by exactly 2, and
reading a byte advances it by exactly 2. -/
theorem claim_C7_cursor_advance (img : Image) (c byte : Nat) (hwf : img.wf)
    (hc : c + 2 ≤ img.width * img.height) :
    (∃ img', write_byte_to_image img c byte = Except.ok (img', c + 2)) ∧
    (∃ v, read_byte_from_image img c = Except.ok (v, c + 2)) := by
  have hWH : 0 < img.width * img.height := by omega
  have hw : 0 < img.width := by
    rcases Nat.eq_zero_or_pos img.width with h | h
    · rw [h, Nat.zero_mul] at hWH; omega
    · exact h
  obtain ⟨img', p, q, hwb, -, -, -, hp, hq, -, -, -⟩ :=
    write_byte_props img c byte hwf hw hc
  exact ⟨⟨img', hwb⟩, ⟨byte_from_pixels p q, read_byte_ok img c p q hw hc hp hq⟩⟩

/-- Concrete instance of C7: a 1×2 image at cursor 0 with byte 255. -/
theorem claim_C7_cursor_advance_witness :
    (∃ img', write_byte_to_image
      { width := 1, height := 2, pixels := [{ r := 0, g := 1, b := 2, a := 3 },
        { r := 4, g := 5, b := 6, a := 7 }] } 0 255 = Except.ok (img', 0 + 2)) ∧
    (∃ v, read_byte_from_image
      { width := 1, height := 2, pixels := [{ r := 0, g := 1, b := 2, a := 3 },
        { r := 4, g := 5, b := 6, a := 7 }] } 0 = Except.ok (v, 0 + 2)) :=
  claim_C7_cursor_advance _ 0 255 (by unfold Image.wf; decide) (by decide)

/-- C4: code-bug evidence.  At width 2, height 2 the pixel index
4 = width×height is not rejected: `get_pixel_position` returns the
coordinates (0, 2), although both the spec and the function's own intent (a
vacuous `x > width` disjunct and the panic message) require a bounds failure
for every index ≥ width×height.  The in-range formula
(i mod width, i / width) asserted by the claim does hold — only the bounds
check is off. -/
theorem claim_C4_bounds_gap :
    get_pixel_position
      { width := 2, height := 2, pixels := List.replicate 4 { r := 0, g := 0, b := 0, a := 0 } }
      4 = Except.ok (0, 2) ∧ 2 * 2 ≤ 4 := by
  constructor
  · rfl
  · decide

/-- C5 (amended): the serialized frame header is a fixed 25-byte logical
frame — 50 pixels — independent of its contents: the flags byte, the
big-endian name length, the big-endian data length and the sixteen reserved
salt bytes in that fixed order make 1 + 4 + 4 + 16 = 25 bytes, not the 22
the claim states. -/
theorem claim_C5_header_fixed_footprint (img : Image) (data name : List Nat) (c : Nat)
    (hwf : img.wf) (hc : c + 2 * 25 ≤ img.width * img.height) :
    ∃ img', write_header img data name c = Except.ok (img', c + 2 * 25) := by
  have hWH : 0 < img.width * img.height := by omega
  have hw : 0 < img.width := by
    rcases Nat.eq_zero_or_pos img.width with h | h
    · rw [h, Nat.zero_mul] at hWH; omega
    · exact h
  obtain ⟨img', hwh, -, -, -, -, -, -⟩ := write_header_props img data name c hwf hw (by omega)
  refine ⟨img', ?_⟩
  rw [show c + 2 * 25 = c + 50 by omega]
  exact hwh

/-- C5 counterexample: on a 10×10 image the header write advances the pixel
cursor from 0 to 50, i.e. it consumes 25 logical bytes at two pixels per
byte — not 22 bytes (44 pixels) as claimed. -/
theorem claim_C5_counterexample :
    Except.map Prod.snd (write_header
      { width := 10, height := 10, pixels := List.replicate 100 { r := 0, g := 0, b := 0, a := 0 } }
      [] [] 0) = Except.ok 50 ∧ (50 : Nat) ≠ 2 * 22 := by
  constructor
  · rfl
  · decide

/-- Concrete instance of the amended C5: the header write consumes 50 pixels
from cursor 3 on a 10×10 image, for a nonempty name and data. -/
theorem claim_C5_header_fixed_footprint_witness :
    ∃ img', write_header
      { width := 10, height := 10, pixels := List.replicate 100 { r := 1, g := 1, b := 1, a := 1 } }
      [5, 6] [7] 3 = Except.ok (img', 3 + 2 * 25) :=
  claim_C5_header_fixed_footprint _ [5, 6] [7] 3 (by unfold Image.wf; decide) (by decide)

/-- C6: when the payload's utilization of the reported capacity exceeds the
99.9% threshold (the source compares `len / capacity * 100.0 > 99.9` on
`f64`; the comparison is modelled by the exact inequality
`1000·len > 999·capacity`), `encode` refuses with a capacity error and
returns the image byte-for-byte unchanged; when utilization is at or below
the threshold, `encode` never reports a capacity error — encoding is
attempted (and can only abort with a pixel-bounds panic). -/
theorem claim_C6_capacity_refusal (img : Image) (data name : List Nat) :
    (capacity_check_refuses data.length (get_image_capacity img) = true →
      encode img data name = (img, some Err.capacity)) ∧
    (capacity_check_refuses data.length (get_image_capacity img) = false →
      (encode img data name).2 ≠ some Err.capacity) := by
  constructor
  · intro h
    unfold encode
    rw [if_pos h]
  · intro h
    unfold encode
    rw [if_neg (by simp [h])]
    cases hE : encode_data img data name with
    | ok r =>
      obtain ⟨i2, c2⟩ := r
      intro hc
      exact Option.noConfusion hc
    | error e =>
      intro hc
      have he : e = Err.capacity := Option.some.inj hc
      rcases encode_data_err_class img data name e hE with h1 | h1 <;>
        (rw [he] at h1; cases h1)

/-- Concrete instances of C6: a 40×40 image (capacity 600) refuses a 600-byte
payload unchanged, and an empty image with an empty payload is not refused
for capacity. -/
theorem claim_C6_capacity_refusal_witness :
    encode
      { width := 40, height := 40, pixels := List.replicate 1600 { r := 0, g := 0, b := 0, a := 0 } }
      (List.replicate 600 1) [] =
      ({ width := 40, height := 40, pixels := List.replicate 1600 { r := 0, g := 0, b := 0, a := 0 } },
        some Err.capacity) ∧
    (encode { width := 0, height := 0, pixels := [] } [] []).2 ≠ some Err.capacity := by
  constructor
  · exact (claim_C6_capacity_refusal _ (List.replicate 600 1) []).1
      (by simp only [List.length_replicate]; decide)
  · exact (claim_C6_capacity_refusal _ [] []).2 (by decide)

/-- C8: for every image whose header read succeeds and whose declared
lengths fit, `decode_data` reads the header first, then exactly
`name_length` bytes as the name and exactly `data_length` bytes as the data;
if the name bytes are not valid UTF-8 it fails with a decoding error, and
otherwise the returned name is exactly those bytes (a Rust `String` carries
exactly the validated UTF-8 bytes). -/
theorem claim_C8_decode_structure (img : Image) (h : Header) (hwf : img.wf)
    (hrh : read_header img 0 = Except.ok (h, 50))
    (hfits : 50 + 2 * h.name_length + 2 * h.data_length ≤ img.width * img.height) :
    ∃ nb db,
      read_bytes_from_image img 50 h.name_length =
        Except.ok (nb, 50 + 2 * h.name_length) ∧
      nb.length = h.name_length ∧
      read_bytes_from_image img (50 + 2 * h.name_length) h.data_length =
        Except.ok (db, 50 + 2 * h.name_length + 2 * h.data_length) ∧
      db.length = h.data_length ∧
      decode_data img = (if utf8Valid nb = true then Except.ok { name := nb, data := db }
        else Except.error Err.encoding) := by
  have hWH : 0 < img.width * img.height := by omega
  have hw : 0 < img.width := by
    rcases Nat.eq_zero_or_pos img.width with hz | hz
    · rw [hz, Nat.zero_mul] at hWH; omega
    · exact hz
  obtain ⟨nb, hnb, hnblen⟩ := read_bytes_ok_of_fits h.name_length img 50 hwf hw (by omega)
  obtain ⟨db, hdb2, hdblen⟩ :=
    read_bytes_ok_of_fits h.data_length img (50 + 2 * h.name_length) hwf hw (by omega)
  refine ⟨nb, db, hnb, hnblen, hdb2, hdblen, ?_⟩
  simp only [decode_data]
  rw [hrh, except_bind_ok]
  show (do
    let (file_name_bytes, c2) ← read_bytes_from_image img 50 h.name_length
    let (data_bytes, _c3) ← read_bytes_from_image img c2 h.data_length
    let nm ← construct_string_from_byte_vector file_name_bytes
    Except.ok (FileData.mk nm data_bytes)) =
    (if utf8Valid nb = true then Except.ok { name := nb, data := db }
      else Except.error Err.encoding)
  rw [hnb, except_bind_ok]
  show (do
    let (data_bytes, _c3) ←
      read_bytes_from_image img (50 + 2 * h.name_length) h.data_length
    let nm ← construct_string_from_byte_vector nb
    Except.ok (FileData.mk nm data_bytes)) =
    (if utf8Valid nb = true then Except.ok { name := nb, data := db }
      else Except.error Err.encoding)
  rw [hdb2, except_bind_ok]
  show (do
    let nm ← construct_string_from_byte_vector nb
    Except.ok (FileData.mk nm db)) =
    (if utf8Valid nb = true then Except.ok { name := nb, data := db }
      else Except.error Err.encoding)
  unfold construct_string_from_byte_vector
  by_cases hu : utf8Valid nb = true
  · rw [if_pos hu, except_bind_ok, if_pos hu]
  · rw [if_neg hu, except_bind_err, if_neg hu]

/-- Concrete instance of C8 on an all-zero 10×10 image, whose header
declares a zero-length name and zero-length data. -/
theorem claim_C8_decode_structure_witness :
    ∃ nb db,
      read_bytes_from_image
        { width := 10, height := 10, pixels := List.replicate 100 { r := 0, g := 0, b := 0, a := 0 } }
        50 0 = Except.ok (nb, 50 + 2 * 0) ∧
      nb.length = 0 ∧
      read_bytes_from_image
        { width := 10, height := 10, pixels := List.replicate 100 { r := 0, g := 0, b := 0, a := 0 } }
        (50 + 2 * 0) 0 = Except.ok (db, 50 + 2 * 0 + 2 * 0) ∧
      db.length = 0 ∧
      decode_data
        { width := 10, height := 10, pixels := List.replicate 100 { r := 0, g := 0, b := 0, a := 0 } } =
        (if utf8Valid nb = true then Except.ok { name := nb, data := db }
          else Except.error Err.encoding) :=
  claim_C8_decode_structure _ (Header.mk 0 0) (by unfold Image.wf; decide) (by rfl)
    (by decide)

/-- C10: for every image whose pixel count is below the reserve of 1000, the
`u32` subtraction in `get_image_capacity` underflows and wraps modulo 2^32
(release-profile semantics; a checked build aborts instead), so the reported
capacity exceeds the entire pixel count and is not the truncated non-negative
value `width*height - 1000` the formula suggests. -/
theorem claim_C10_capacity_underflow (img : Image)
    (hsmall : img.width * img.height < 1000) :
    get_image_capacity img = img.width * img.height + (4294967296 - 1000) ∧
    img.width * img.height < get_image_capacity img ∧
    get_image_capacity img ≠ img.width * img.height - 1000 := by
  unfold get_image_capacity
  rw [Nat.mul_comm img.height img.width]
  rw [Nat.mod_eq_of_lt (show img.width * img.height < 4294967296 by omega)]
  rw [Nat.mod_eq_of_lt
    (show img.width * img.height + 4294967296 - 1000 < 4294967296 by omega)]
  refine ⟨by omega, by omega, by omega⟩

/-- Concrete instance of C10: a 10×10 image (100 pixels) reports a wrapped
capacity of 4294966396 bytes. -/
theorem claim_C10_capacity_underflow_witness :
    get_image_capacity { width := 10, height := 10, pixels := [] } =
      10 * 10 + (4294967296 - 1000) ∧
    10 * 10 < get_image_capacity { width := 10, height := 10, pixels := [] } ∧
    get_image_capacity { width := 10, height := 10, pixels := [] } ≠ 10 * 10 - 1000 :=
  claim_C10_capacity_underflow _ (by decide)

/-- C9: the capacity gate passes payloads that do not fit.  On the 45×44
image (1980 pixels, reported capacity 980) a 970-byte payload with a
one-byte name passes the check — it compares only the data byte count
against width×height − 1000, ignoring the 25 header bytes, the name bytes
and the two-pixels-per-byte cost — yet encoding needs 2·(25+1+970) = 1992
pixels: the header is written (mutating the image), and the data write then
aborts with a bounds error mid-write. -/
theorem claim_C9_capacity_gap :
    capacity_check_refuses (List.replicate 970 0).length (get_image_capacity c9_img) = false ∧
    encode_data c9_img (List.replicate 970 0) [97] = Except.error Err.bounds ∧
    ∃ img1, write_header c9_img (List.replicate 970 0) [97] 0 = Except.ok (img1, 50) ∧
      img1 ≠ c9_img := by
  have hwf : c9_img.wf := c9_img_wf
  have hw : 0 < c9_img.width := by decide
  have hWH : c9_img.width * c9_img.height = 1980 := by decide
  obtain ⟨img1, hwh, hW1, hH1, hL1, hlow1, hhigh1, hrh1⟩ :=
    write_header_props c9_img (List.replicate 970 0) [97] 0 hwf hw (by rw [hWH]; omega)
  have hwf1 : img1.wf := wf_transfer _ _ hW1 hH1 hL1 hwf
  have hw1 : 0 < img1.width := by rw [hW1]; exact hw
  obtain ⟨img2, hwvN, hW2, hH2, hL2, hlow2, hhigh2, hreadN⟩ :=
    write_vec_props [97] img1 (0 + 50) hwf1 hw1 (by rw [hW1, hH1, hWH]; decide)
  have hfail : write_byte_vector_to_image img2 (0 + 50 + 2 * [97].length)
      (List.replicate 970 0) = Except.error Err.bounds := by
    apply write_vec_fails
    · exact wf_transfer _ _ hW2 hH2 hL2 hwf1
    · rw [hW2]; exact hw1
    · intro hcon
      have hlen := congrArg List.length hcon
      rw [List.length_replicate] at hlen
      simp at hlen
    · rw [hW2, hW1, hH2, hH1, hWH, List.length_replicate]
      decide
  refine ⟨by simp only [List.length_replicate]; decide, ?_, ⟨img1, hwh, ?_⟩⟩
  · simp only [encode_data]
    rw [hwh, except_bind_ok]
    show (do
      let (img2, c2) ← write_byte_vector_to_image img1 (0 + 50) [97]
      write_byte_vector_to_image img2 c2 (List.replicate 970 0)) =
      Except.error Err.bounds
    rw [hwvN, except_bind_ok]
    show write_byte_vector_to_image img2 (0 + 50 + 2 * [97].length)
      (List.replicate 970 0) = Except.error Err.bounds
    exact hfail
  · intro hcon
    rw [List.length_replicate] at hrh1
    rw [Nat.mod_eq_of_lt (show ([97] : List Nat).length < 4294967296 by decide),
      Nat.mod_eq_of_lt (show (970 : Nat) < 4294967296 by decide)] at hrh1
    rw [hcon] at hrh1
    have heval : read_header c9_img 0 =
        Except.ok ({ name_length := 4294967295, data_length := 4294967295 }, 50) := by rfl
    have hcontra := heval.symm.trans hrh1
    simp only [Except.ok.injEq, Prod.mk.injEq, Header.mk.injEq] at hcontra
    obtain ⟨⟨h1, -⟩, -⟩ := hcontra
    exact absurd h1 (by decide)

end ImgFu
